import Mathlib

/-!
Verification of the execution engine of the `ai-agents-sdk-go` repository.

The development shallowly embeds the Go sources into Lean:

* pure Go functions become Lean functions with the same names;
* Go's `(value, error)` returns become `Except String` (for errors created by
  user-supplied callbacks, tools and providers) or `Except GoError` (for the
  engine's own error values, which track the `errors.Is` sentinel chain);
* the completion service (`model.Provider.CreateChatCompletion`) is modeled as a
  pure function of the number of previous calls, the message buffer and the
  settings; this captures the deterministic stateful mock providers used by the
  repository's tests;
* the engine additionally returns a list of `Event`s: pure instrumentation
  recording exactly where the source performs a model call, a guardrail check or
  a tool invocation, so that theorems such as "the model is never called" can be
  stated.

Source files embedded: the runner package (`runner.go`), the handoff package
(`handoff.go`, in particular `ValidateJSON`), `agent.go` and `guardrail.go`.
-/

namespace AgentsSDK

/-- A JSON value, as produced by Go's `json.Unmarshal` into `map[string]any`.
Numbers are modeled as integers: no claim depends on fractional values. -/
inductive JsonVal where
  | null
  | bool (b : Bool)
  | num (n : Int)
  | str (s : String)
  | arr (elems : List JsonVal)
  | obj (fields : List (String × JsonVal))

/-- A parsed JSON object: Go's `map[string]any`, as an association list
(keys are unique; insertion order stands in for Go's map). -/
abbrev JsonObj := List (String × JsonVal)

/-- Embedding of `handoff.JSONSchema` (Go: `map[string]any`). Only the keys the
validator reads are kept structurally: `required` holds the `"required"` entry
when it is present with type `[]string` (a failed type assertion in Go skips the
check, which is the `none` case here), `properties` holds the `"properties"`
entry when present as a string-keyed map, each field schema reduced to its
`"type"` tag (`none` when the tag is absent or not a string). `otherKeys` counts
the remaining keys of the map so that `len(schema)` is representable. -/
structure JSONSchema where
  required : Option (List String)
  properties : Option (List (String × Option String))
  otherKeys : Nat
deriving DecidableEq

/-- Go `len(schema) == 0`: the schema map has no entries at all. -/
def JSONSchema.isEmpty (s : JSONSchema) : Bool :=
  s.required.isNone && s.properties.isNone && s.otherKeys == 0

/-- The empty schema literal `JSONSchema{}`. -/
def emptySchema : JSONSchema := ⟨none, none, 0⟩

/-- Embedding of `isValidType` from handoff.go: checks whether a decoded JSON
value matches a schema type tag. Unknown tags are accepted (the `default`
branch of the Go switch returns true). -/
def isValidType (value : JsonVal) (expectedType : String) : Bool :=
  if expectedType = "string" then
    match value with
    | .str _ => true
    | _ => false
  else if expectedType = "number" ∨ expectedType = "integer" then
    match value with
    | .num _ => true
    | _ => false
  else if expectedType = "boolean" then
    match value with
    | .bool _ => true
    | _ => false
  else if expectedType = "array" then
    match value with
    | .arr _ => true
    | _ => false
  else if expectedType = "object" then
    match value with
    | .obj _ => true
    | _ => false
  else
    true

/-- Embedding of `validateFieldType`: validates a single field against the
`properties` map. A field absent from `properties`, or a field schema without a
string `type` tag, passes. -/
def validateFieldType (field : String) (value : JsonVal)
    (properties : List (String × Option String)) : Except String Unit :=
  match properties.lookup field with
  | none => .ok ()
  | some none => .ok ()
  | some (some expectedType) =>
    if isValidType value expectedType then .ok ()
    else .error ("invalid type for field " ++ field ++ ": expected " ++ expectedType)

/-- Iteration of `validateFieldTypes` over the data fields. Go iterates the map
in unspecified order; the embedding fixes association-list order (validity is
order-independent, only which offending field is reported first could differ,
and no claim depends on that). -/
def validateFieldTypesAux (properties : List (String × Option String)) :
    JsonObj → Except String Unit
  | [] => .ok ()
  | (field, value) :: rest =>
    match validateFieldType field value properties with
    | .error e => .error e
    | .ok _ => validateFieldTypesAux properties rest

/-- Embedding of `validateFieldTypes`: absent `properties` passes everything. -/
def validateFieldTypes (data : JsonObj) (schema : JSONSchema) : Except String Unit :=
  match schema.properties with
  | none => .ok ()
  | some properties => validateFieldTypesAux properties data

/-- Iteration of `validateRequiredFields` over the required-field list. -/
def validateRequiredFieldsAux (data : JsonObj) : List String → Except String Unit
  | [] => .ok ()
  | field :: rest =>
    if (data.lookup field).isSome then validateRequiredFieldsAux data rest
    else .error ("missing required field: " ++ field)

/-- Embedding of `validateRequiredFields`: when the `required` entry is absent
(or was not a `[]string`, so the Go type assertion failed) nothing is checked. -/
def validateRequiredFields (data : JsonObj) (schema : JSONSchema) : Except String Unit :=
  match schema.required with
  | none => .ok ()
  | some required => validateRequiredFieldsAux data required

/-- Embedding of `validateJSONData`: required fields first, then field types. -/
def validateJSONData (data : JsonObj) (schema : JSONSchema) : Except String JsonObj :=
  match validateRequiredFields data schema with
  | .error e => .error e
  | .ok _ =>
    match validateFieldTypes data schema with
    | .error e => .error e
    | .ok _ => .ok data

/-- Embedding of `handoff.ValidateJSON`. The first argument is the outcome of
`json.Unmarshal([]byte(jsonData), &data)` on the raw argument string: `.error`
when the string is not a JSON object. An empty schema short-circuits to valid
(Go returns `nil, nil`, modeled as `.ok none`). -/
def ValidateJSON (jsonData : Except String JsonObj) (schema : JSONSchema) :
    Except String (Option JsonObj) :=
  if schema.isEmpty then .ok none
  else
    match jsonData with
    | .error e => .error ("failed to parse JSON: " ++ e)
    | .ok data =>
      match validateJSONData data schema with
      | .error e => .error e
      | .ok d => .ok (some d)

/-- Embedding of `model.FunctionCall`. `argumentsJson` is the embedding's record
of what `json.Unmarshal` yields on `arguments`; the engine consults it exactly
where the source unmarshals the raw string. -/
structure FunctionCall where
  name : String
  arguments : String
  argumentsJson : Except String JsonObj

/-- Embedding of `model.ToolCall`. -/
structure ToolCall where
  id : String
  type : String
  function : FunctionCall

/-- Embedding of `model.Message` (and of the field-identical `runner.Message`). -/
structure Message where
  role : String
  content : String
  toolCalls : List ToolCall
  toolCallID : String
  name : String

/-- Embedding of `model.Usage` and the field-identical `runner.Usage`. Token
counts are natural numbers; the source only ever adds reported counts. -/
structure Usage where
  promptTokens : Nat
  completionTokens : Nat
  totalTokens : Nat
deriving DecidableEq

/-- Embedding of `runner.convertUsage` (a field-by-field copy between the two
identical Usage structs). -/
def convertUsage (usage : Usage) : Usage :=
  ⟨usage.promptTokens, usage.completionTokens, usage.totalTokens⟩

/-- Embedding of `runner.accumulateUsage`. -/
def accumulateUsage (totalUsage stepUsage : Usage) : Usage :=
  ⟨totalUsage.promptTokens + stepUsage.promptTokens,
   totalUsage.completionTokens + stepUsage.completionTokens,
   totalUsage.totalTokens + stepUsage.totalTokens⟩

/-- Embedding of `guardrail.InputGuardrailResult`. -/
structure InputGuardrailResult where
  allowed : Bool
  message : String
deriving DecidableEq

/-- Embedding of `guardrail.InputGuardrail`: the interface is reduced to its
data (name, description) and its `Check` method, whose Go `(result, error)`
return becomes `Except String`. -/
structure InputGuardrail where
  name : String
  description : String
  check : String → Except String InputGuardrailResult

/-- Embedding of `guardrail.OutputGuardrailResult`. -/
structure OutputGuardrailResult where
  allowed : Bool
  message : String
  modifiedOutput : String
deriving DecidableEq

/-- Embedding of `guardrail.OutputGuardrail`. -/
structure OutputGuardrail where
  name : String
  description : String
  check : String → Except String OutputGuardrailResult

/-- Embedding of `tool.Tool`: name, description, parameter schema, and the
`Invoke` method (raw argument string to text or failure). -/
structure Tool where
  name : String
  description : String
  paramsJSONSchema : JSONSchema
  invoke : String → Except String String

/-- Embedding of `agent.Hooks`. Agents and tools are passed to Go hooks by
pointer; the embedding passes them by name (the claims only depend on hook
outcomes, not on hook-internal inspection of the argument). Order of arguments
follows the Go methods. -/
structure Hooks where
  onStart : String → Except String Unit
  onEnd : String → String → Except String Unit
  onHandoff : String → String → Except String Unit
  onToolStart : String → String → Except String Unit
  onToolEnd : String → String → String → Except String Unit

/-- The no-op `agent.BaseAgentHooks`, every method of which returns nil. -/
def baseAgentHooks : Hooks :=
  ⟨fun _ => .ok (), fun _ _ => .ok (), fun _ _ => .ok (),
   fun _ _ => .ok (), fun _ _ _ => .ok ()⟩

/-- The non-handoff fields of `agent.Agent`. `dynamicInstructions` and
`asyncDynamicInstructions` take only a context in Go, so they are modeled by
their (constant) outcome; `outputType` models the declared `reflect.Type`
together with the behavior of `json.Unmarshal` into it: the function is the
parse of a content string into a value of the declared shape. Fields the engine
never reads (HandoffDescription, ModelSettings) are omitted. -/
structure AgentCore where
  name : String
  instructions : String
  dynamicInstructions : Option String
  asyncDynamicInstructions : Option (Except String String)
  model : String
  tools : List Tool
  inputGuardrails : List InputGuardrail
  outputGuardrails : List OutputGuardrail
  outputType : Option (String → Except String JsonVal)
  hooks : Hooks

/-- Embedding of the `handoff.Handoff` interface, parametric in the target so
that `Agent` below can nest it. Interface methods that the engine calls are
fields: `toolName`/`toolDescription` hold what the methods return,
`shouldHandoff` is the decision predicate on the raw argument payload, and
`onHandoff` is the callback outcome as a function of the raw input JSON (the
engine builds the `InputData` argument itself from fixed data). -/
structure HandoffTo (α : Type) where
  toolName : String
  toolDescription : String
  inputJSONSchema : JSONSchema
  shouldHandoff : String → Except String Bool
  onHandoff : String → Except String Unit
  target : α

/-- Embedding of `agent.Agent`: the core fields plus the transfer-target list.
Go links agents by pointer; the embedding nests the target agent value, which
represents every acyclic agent graph the claims need. -/
inductive Agent where
  | mk (core : AgentCore) (handoffs : List (HandoffTo Agent)) : Agent

/-- Field accessor for the nested inductive. -/
def Agent.core : Agent → AgentCore
  | .mk c _ => c

/-- Field accessor for the nested inductive. -/
def Agent.handoffs : Agent → List (HandoffTo Agent)
  | .mk _ hs => hs

/-- A handoff whose target is an agent. -/
abbrev Handoff := HandoffTo Agent

/-- Embedding of `agent.New`: name and instructions, empty tool and handoff
lists, `BaseAgentHooks`. -/
def AgentNew (name instructions : String) : Agent :=
  Agent.mk ⟨name, instructions, none, none, "", [], [], [], none, baseAgentHooks⟩ []

/-- Embedding of `Agent.GetSystemPrompt`: async dynamic instructions win, then
dynamic instructions, then the static field. -/
def Agent.getSystemPrompt (a : Agent) : Except String String :=
  match a.core.asyncDynamicInstructions with
  | some result => result
  | none =>
    match a.core.dynamicInstructions with
    | some s => .ok s
    | none => .ok a.core.instructions

/-- The `errors.New` sentinels of the runner package, plus `plain` for every
error value that is not one of the six sentinels (tool errors, hook errors,
guardrail check errors, provider errors). An error's sentinel survives
`fmt.Errorf("...%w...")` wrapping, which is what `errors.Is` inspects. -/
inductive ErrBase where
  | maxTurnsExceeded
  | modelProviderRequired
  | guardrailTripwire
  | agentMissingInstructions
  | invalidHandoffInput
  | invalidOutputFormat
  | plain
deriving DecidableEq

/-- The message of each sentinel, from the `errors.New` calls in runner.go. -/
def ErrBase.text : ErrBase → String
  | .maxTurnsExceeded => "maximum turns exceeded"
  | .modelProviderRequired => "model provider is required"
  | .guardrailTripwire => "guardrail tripwire triggered"
  | .agentMissingInstructions => "agent has no instructions"
  | .invalidHandoffInput => "invalid handoff input"
  | .invalidOutputFormat => "invalid output format"
  | .plain => ""

/-- A Go error value as the engine builds them: the rendered message together
with the sentinel found by unwrapping the `%w` chain. -/
structure GoError where
  msg : String
  base : ErrBase
deriving DecidableEq

/-- A bare sentinel error such as `ErrMaxTurnsExceeded`. -/
def GoError.fromBase (b : ErrBase) : GoError := ⟨b.text, b⟩

/-- Embedding of `fmt.Errorf("<p>: %w", e)`: a message put in front of a
wrapped error, preserving its sentinel. -/
def GoError.wrap (p : String) (e : GoError) : GoError := ⟨p ++ ": " ++ e.msg, e.base⟩

/-- Embedding of `fmt.Errorf("%w: %s", sentinel, s)`. -/
def GoError.baseWith (b : ErrBase) (s : String) : GoError := ⟨b.text ++ ": " ++ s, b⟩

/-- An error from outside the runner package (a callback, tool, hook or
provider error), carrying no sentinel. -/
def GoError.plain (s : String) : GoError := ⟨s, .plain⟩

/-- A tool definition as serialized for the completion service by
`buildToolDefinitions` (the `"function"` object of the Go map literal). -/
structure ToolDef where
  name : String
  description : String
  parameters : JSONSchema
deriving DecidableEq

/-- Embedding of `model.Settings` restricted to the fields the engine writes:
the tool definitions and the model name placed in `Custom["model"]`. The
generation-tuning fields of `DefaultSettings` are never read or branched on by
the engine and are omitted. -/
structure Settings where
  tools : List ToolDef
  model : String

/-- Embedding of `model.Response`. -/
structure ChatResponse where
  message : Message
  usage : Usage

/-- The completion service: `CreateChatCompletion` as a pure function of the
number of previous calls in this run, the message buffer and the settings. The
call index models provider-internal state such as the test FakeModel's turn
counter; the engine performs exactly one call per turn, so the index equals the
current turn counter. -/
abbrev Provider := Nat → List Message → Settings → Except String ChatResponse

/-- Embedding of `handoff.InputData`. The engine only ever fills `Metadata`
with string values derived from the handoff, so maps are modeled as string
association lists. -/
structure InputData where
  inputHistory : List (List (String × String))
  preHandoffItems : List (List (String × String))
  newItems : List (List (String × String))
  metadata : List (String × String)

/-- Embedding of `handoff.InputFilter`. -/
abbrev InputFilter := InputData → Except String InputData

/-- Embedding of `runner.RunConfig`. `StepDelay` only drives `time.Sleep`,
which has no observable effect in the embedding; the handoff callback receives
target name, source name and the input JSON. -/
structure RunConfig where
  model : String
  modelProvider : Option Provider
  maxTurns : Int
  stepDelay : Nat
  handoffCallback : Option (String → String → String → Except String Unit)
  handoffInputFilter : Option InputFilter

/-- The `DefaultMaxTurns` constant. -/
def DefaultMaxTurns : Int := 10

/-- Embedding of `runner.DefaultRunConfig`. -/
def DefaultRunConfig : RunConfig :=
  ⟨"gpt-4o", none, DefaultMaxTurns, 0, none, none⟩

/-- Embedding of `runner.Result`. -/
structure RunResult where
  finalOutput : String
  structuredOutput : Option JsonVal
  lastAgent : Agent
  history : List Message
  usage : Usage

/-- Embedding of `runner.stepResult`. -/
structure StepResult where
  finalOutput : String
  structuredOutput : Option JsonVal
  nextAgent : Option Agent
  messages : List Message
  usage : Usage
  handoffInput : String

/-- Embedding of `runner.executionState`, without the tracing/timing fields. -/
structure ExecState where
  agent : Agent
  currentAgent : Agent
  originalInput : String
  config : RunConfig
  messages : List Message
  resultMessages : List Message
  usage : Usage
  stepCounter : Nat
  finalOutput : String
  structuredOutput : Option JsonVal

/-- Instrumentation: one event per external call the engine makes. Events are
emitted exactly at the source locations of the corresponding calls; they are
observation only and never influence control flow. -/
inductive Event where
  | inputGuardrailCheck (guardrailName : String) (input : String)
  | modelCall (turn : Nat) (messages : List Message)
  | toolInvoke (toolName : String) (args : String)
  | outputGuardrailCheck (guardrailName : String) (output : String)
  | handoffTaken (fromAgent toAgent : String)

/-- True exactly on model-call events. -/
def Event.isModelCall : Event → Bool
  | .modelCall _ _ => true
  | _ => false

/-- Number of completion-service calls recorded in a trace. -/
def countModelCalls (evs : List Event) : Nat :=
  (evs.filter Event.isModelCall).length

/-- True exactly on tool-invocation events. -/
def Event.isToolInvoke : Event → Bool
  | .toolInvoke _ _ => true
  | _ => false

/-- Embedding of `validateInputsAndSetup`: empty static instructions and a
missing provider are rejected; a non-positive MaxTurns is replaced by the
default. Go mutates the config through a pointer; the embedding returns the
updated config. -/
def validateInputsAndSetup (a : Agent) (config : RunConfig) : Except GoError RunConfig :=
  if a.core.instructions = "" then
    .error (GoError.fromBase .agentMissingInstructions)
  else if config.modelProvider.isNone then
    .error (GoError.fromBase .modelProviderRequired)
  else if config.maxTurns ≤ 0 then
    .ok { config with maxTurns := DefaultMaxTurns }
  else
    .ok config

/-- Embedding of `prepareMessages`: a system message when the agent has static
instructions, then a user message when the input is non-empty. -/
def prepareMessages (agent : Agent) (input : String) : List Message :=
  (if agent.core.instructions ≠ "" then
    [⟨"system", agent.core.instructions, [], "", ""⟩] else []) ++
  (if input ≠ "" then [⟨"user", input, [], "", ""⟩] else [])

/-- Embedding of `convertModelMessages` (a field-by-field copy between the two
identical Message structs). -/
def convertModelMessages (messages : List Message) : List Message :=
  messages.map (fun msg => ⟨msg.role, msg.content, msg.toolCalls, msg.toolCallID, msg.name⟩)

/-- Embedding of `buildToolDefinitions`: the agent's own tools followed by every
transfer target exposed as a tool-shaped entry. -/
def buildToolDefinitions (a : Agent) : List ToolDef :=
  a.core.tools.map (fun t => ⟨t.name, t.description, t.paramsJSONSchema⟩) ++
  a.handoffs.map (fun h => ⟨h.toolName, h.toolDescription, h.inputJSONSchema⟩)

/-- The loop body of `applyInputGuardrails`, recorded check by check. A check
error or a disallowed result stops the iteration with the corresponding error;
the trace keeps every check that actually ran, with the text it received. -/
def applyInputGuardrailsAux (input : String) :
    List InputGuardrail → List Event × Except GoError Unit
  | [] => ([], .ok ())
  | g :: rest =>
    match g.check input with
    | .error e =>
      ([.inputGuardrailCheck g.name input],
       .error (GoError.wrap "input guardrail error" (GoError.plain e)))
    | .ok result =>
      if !result.allowed then
        ([.inputGuardrailCheck g.name input],
         .error (GoError.baseWith .guardrailTripwire result.message))
      else
        let next := applyInputGuardrailsAux input rest
        (.inputGuardrailCheck g.name input :: next.1, next.2)

/-- Embedding of `applyInputGuardrails`: the starting agent's input guardrails
run against the original input. -/
def applyInputGuardrails (state : ExecState) : List Event × Except GoError Unit :=
  applyInputGuardrailsAux state.originalInput state.agent.core.inputGuardrails

/-- The loop body of `applyOutputGuardrails`: each allowed check with a
non-empty `ModifiedOutput` replaces the text the next check receives. -/
def applyOutputGuardrailsAux (modifiedOutput : String) :
    List OutputGuardrail → List Event × Except GoError String
  | [] => ([], .ok modifiedOutput)
  | g :: rest =>
    match g.check modifiedOutput with
    | .error e =>
      ([.outputGuardrailCheck g.name modifiedOutput],
       .error (GoError.wrap "output guardrail error" (GoError.plain e)))
    | .ok result =>
      if !result.allowed then
        ([.outputGuardrailCheck g.name modifiedOutput],
         .error (GoError.baseWith .guardrailTripwire result.message))
      else
        let newOutput := if result.modifiedOutput ≠ "" then result.modifiedOutput
                         else modifiedOutput
        let next := applyOutputGuardrailsAux newOutput rest
        (.outputGuardrailCheck g.name modifiedOutput :: next.1, next.2)

/-- Embedding of `applyOutputGuardrails`. -/
def applyOutputGuardrails (a : Agent) (output : String) :
    List Event × Except GoError String :=
  applyOutputGuardrailsAux output a.core.outputGuardrails

/-- Embedding of `executeToolWithTracing`: OnToolStart hook, then the
invocation (the `toolInvoke` event marks the `tool.Invoke` call), then the
OnToolEnd hook; any failure aborts with a wrapped error. -/
def executeToolWithTracing (a : Agent) (t : Tool) (args : String) :
    List Event × Except GoError String :=
  match a.core.hooks.onToolStart a.core.name t.name with
  | .error e => ([], .error (GoError.wrap "error in OnToolStart hook" (GoError.plain e)))
  | .ok _ =>
    match t.invoke args with
    | .error e =>
      ([.toolInvoke t.name args],
       .error (GoError.wrap "tool execution error" (GoError.plain e)))
    | .ok result =>
      match a.core.hooks.onToolEnd a.core.name t.name result with
      | .error e =>
        ([.toolInvoke t.name args],
         .error (GoError.wrap "error in OnToolEnd hook" (GoError.plain e)))
      | .ok _ => ([.toolInvoke t.name args], .ok result)

/-- The single quote character, used in the tool-not-found message. -/
def sq : String := String.singleton (Char.ofNat 39)

/-- The inner loop of the handoff scan in `processToolCallsAndHandoffs`: the
first handoff whose tool name matches the request decides; a `yes` decision
validates the payload against the declared schema when that schema is
non-empty and yields the transfer step result. -/
def scanHandoffList (message : Message) (tc : ToolCall) :
    List Handoff → Except GoError (Option StepResult)
  | [] => .ok none
  | h :: rest =>
    if h.toolName = tc.function.name then
      match h.shouldHandoff tc.function.arguments with
      | .error e => .error (GoError.wrap "failed to check handoff" (GoError.plain e))
      | .ok shouldHandoff =>
        if shouldHandoff then
          if !h.inputJSONSchema.isEmpty then
            match ValidateJSON tc.function.argumentsJson h.inputJSONSchema with
            | .error e => .error (GoError.baseWith .invalidHandoffInput e)
            | .ok _ =>
              .ok (some ⟨"", none, some h.target, [message], ⟨0, 0, 0⟩,
                   tc.function.arguments⟩)
          else
            .ok (some ⟨"", none, some h.target, [message], ⟨0, 0, 0⟩,
                 tc.function.arguments⟩)
        else
          scanHandoffList message tc rest
    else
      scanHandoffList message tc rest

/-- The outer loop of the handoff scan: requested invocations in list order. -/
def scanToolCallsForHandoff (a : Agent) (message : Message) :
    List ToolCall → Except GoError (Option StepResult)
  | [] => .ok none
  | tc :: rest =>
    match scanHandoffList message tc a.handoffs with
    | .error e => .error e
    | .ok (some r) => .ok (some r)
    | .ok none => scanToolCallsForHandoff a message rest

/-- The tool-execution loop of `processToolCallsAndHandoffs`: every request in
order; a missing tool becomes an explanatory tool message, a failing execution
aborts with the error wrapped once more at the call site. -/
def executeToolCalls (a : Agent) :
    List ToolCall → List Event × Except GoError (List Message)
  | [] => ([], .ok [])
  | tc :: rest =>
    match a.core.tools.find? (fun t => t.name == tc.function.name) with
    | some foundTool =>
      match executeToolWithTracing a foundTool tc.function.arguments with
      | (evs, .error e) => (evs, .error (GoError.wrap "tool execution error" e))
      | (evs, .ok toolResponse) =>
        let next := executeToolCalls a rest
        (evs ++ next.1,
         next.2.map (fun msgs => (⟨"tool", toolResponse, [], tc.id, ""⟩ : Message) :: msgs))
    | none =>
      let toolResponse := "Error: Tool " ++ sq ++ tc.function.name ++ sq ++ " not found"
      let next := executeToolCalls a rest
      (next.1,
       next.2.map (fun msgs => (⟨"tool", toolResponse, [], tc.id, ""⟩ : Message) :: msgs))

/-- Embedding of `processToolCallsAndHandoffs` (runner.go): scan all requested
invocations for a transfer first; only when no transfer fires are the
invocations dispatched as tools. The transfer step result carries just the
assistant message; the tool step result carries the assistant message followed
by one tool message per request. -/
def processToolCallsAndHandoffs (a : Agent) (message : Message) :
    List Event × Except GoError StepResult :=
  if message.toolCalls.isEmpty then
    ([], .error (GoError.plain "no tool calls found in message"))
  else
    match scanToolCallsForHandoff a message message.toolCalls with
    | .error e => ([], .error e)
    | .ok (some r) => ([], .ok r)
    | .ok none =>
      match executeToolCalls a message.toolCalls with
      | (evs, .error e) => (evs, .error e)
      | (evs, .ok toolResponses) =>
        (evs, .ok ⟨"", none, none, message :: toolResponses, ⟨0, 0, 0⟩, ""⟩)

/-- The final-output tail of `processAgentStep`: parse against the declared
strict shape when one is set, then run the output guardrails when any are
declared. The structured value is parsed from the original content; a
guardrail rewrite replaces only the plain-text output. -/
def processFinalOutput (state : ExecState) (response : ChatResponse) :
    List Event × Except GoError (StepResult × ExecState) :=
  let finalOutput := response.message.content
  let parsed : Except GoError (Option JsonVal) :=
    match state.currentAgent.core.outputType with
    | none => .ok none
    | some parse =>
      match parse finalOutput with
      | .error e => .error (GoError.baseWith .invalidOutputFormat e)
      | .ok structValue => .ok (some structValue)
  match parsed with
  | .error e => ([], .error e)
  | .ok structuredOutput =>
    if state.currentAgent.core.outputGuardrails.isEmpty then
      ([], .ok (⟨finalOutput, structuredOutput, none, [response.message],
                convertUsage response.usage, ""⟩, state))
    else
      match applyOutputGuardrails state.currentAgent finalOutput with
      | (evs, .error e) => (evs, .error e)
      | (evs, .ok checkedOutput) =>
        (evs, .ok (⟨checkedOutput, structuredOutput, none, [response.message],
                   convertUsage response.usage, ""⟩, state))

/-- The settings `processAgentStep` sends to the completion service: the tool
definitions and the model name (the agent's own model overriding the config). -/
def settingsFor (a : Agent) (config : RunConfig) : Settings :=
  ⟨buildToolDefinitions a,
   if a.core.model ≠ "" then a.core.model else config.model⟩

/-- Embedding of `processAgentStep`: build the settings, call the completion
service (the `modelCall` event marks that call), accumulate usage into the
state, then branch on whether the response requests invocations. -/
def processAgentStep (state : ExecState) : List Event × Except GoError (StepResult × ExecState) :=
  let settings : Settings := settingsFor state.currentAgent state.config
  match state.config.modelProvider with
  | none => ([], .error (GoError.fromBase .modelProviderRequired))
  | some provider =>
    match provider state.stepCounter state.messages settings with
    | .error e =>
      ([.modelCall state.stepCounter state.messages],
       .error (GoError.wrap "LLM call failed" (GoError.plain e)))
    | .ok response =>
      let state1 := { state with
        usage := accumulateUsage state.usage (convertUsage response.usage) }
      if !response.message.toolCalls.isEmpty then
        match processToolCallsAndHandoffs state1.currentAgent response.message with
        | (evs, .error e) =>
          (.modelCall state.stepCounter state.messages :: evs, .error e)
        | (evs, .ok stepRes) =>
          (.modelCall state.stepCounter state.messages :: evs, .ok (stepRes, state1))
      else
        match processFinalOutput state1 response with
        | (evs, .error e) =>
          (.modelCall state.stepCounter state.messages :: evs, .error e)
        | (evs, .ok r) =>
          (.modelCall state.stepCounter state.messages :: evs, .ok r)

/-- The in-place system-message refresh of `runSingleTurn`: when the buffer
starts with a system message, its content is replaced by the freshly computed
instructions. -/
def refreshSystemMessage (instructions : String) : List Message → List Message
  | [] => []
  | msg :: rest =>
    if msg.role = "system" then { msg with content := instructions } :: rest
    else msg :: rest

/-- Embedding of `runSingleTurn`: resolve the current agent's instructions and
refresh the system message, then run the step. -/
def runSingleTurn (state : ExecState) : List Event × Except GoError (StepResult × ExecState) :=
  match state.currentAgent.getSystemPrompt with
  | .error e => ([], .error (GoError.wrap "failed to get instructions" (GoError.plain e)))
  | .ok instructions =>
    processAgentStep { state with messages := refreshSystemMessage instructions state.messages }

/-- Embedding of `processTargetHandoff`: the handoff's own OnHandoff callback. -/
def processTargetHandoff (targetHandoff : Handoff) (handoffInput : String) :
    Except GoError Unit :=
  match targetHandoff.onHandoff handoffInput with
  | .error e => .error (GoError.wrap "handoff callback failed" (GoError.plain e))
  | .ok _ => .ok ()

/-- Embedding of `processHandoffCallbacks`. Go finds the handoff object by
pointer equality with the target agent; the embedding compares agent names,
assuming (as every caller of the source does) that distinct agents carry
distinct names. -/
def processHandoffCallbacks (state : ExecState) (nextAgent : Agent)
    (handoffInput : String) : Except GoError Unit :=
  let found := state.currentAgent.handoffs.find?
    (fun h => h.target.core.name == nextAgent.core.name)
  let step1 : Except GoError Unit :=
    match found with
    | some targetHandoff => processTargetHandoff targetHandoff handoffInput
    | none => .ok ()
  match step1 with
  | .error e => .error e
  | .ok _ =>
    let step2 : Except GoError Unit :=
      match state.config.handoffCallback with
      | some cb =>
        match cb nextAgent.core.name state.currentAgent.core.name handoffInput with
        | .error e => .error (GoError.wrap "handoff callback failed" (GoError.plain e))
        | .ok _ => .ok ()
      | none => .ok ()
    match step2 with
    | .error e => .error e
    | .ok _ =>
      match nextAgent.core.hooks.onHandoff nextAgent.core.name state.currentAgent.core.name with
      | .error e => .error (GoError.wrap "error in OnHandoff hook" (GoError.plain e))
      | .ok _ => .ok ()

/-- Embedding of `applyHandoffInputFilter`: the filter only runs when
configured; its result is only logged to the span, never applied. -/
def applyHandoffInputFilter (state : ExecState) (nextAgent : Agent)
    (handoffInput : String) : Except GoError Unit :=
  match state.config.handoffInputFilter with
  | none => .ok ()
  | some filter =>
    let inputData : InputData :=
      ⟨[], [], [],
       [("handoff_input", handoffInput),
        ("source_agent", state.currentAgent.core.name),
        ("target_agent", nextAgent.core.name)]⟩
    match filter inputData with
    | .error e => .error (GoError.wrap "handoff input filter failed" (GoError.plain e))
    | .ok _ => .ok ()

/-- Embedding of `updateMessagesForNewAgent`: a fresh system message with the
target agent's instructions, followed by every non-system message of the
current buffer; the target becomes the current agent. -/
def updateMessagesForNewAgent (state : ExecState) (nextAgent : Agent) :
    Except GoError ExecState :=
  match nextAgent.getSystemPrompt with
  | .error e =>
    .error (GoError.wrap "failed to get instructions for next agent" (GoError.plain e))
  | .ok newInstructions =>
    let newMessages := (⟨"system", newInstructions, [], "", ""⟩ : Message) ::
      state.messages.filter (fun msg => msg.role ≠ "system")
    .ok { state with currentAgent := nextAgent, messages := newMessages }

/-- Embedding of `handleAgentHandoff`: callbacks and hooks, input filter,
message/agent swap, then the new agent's OnStart hook. The `handoffTaken`
event marks a completed transfer. -/
def handleAgentHandoff (state : ExecState) (stepRes : StepResult) (nextAgent : Agent) :
    List Event × Except GoError ExecState :=
  let handoffInput := stepRes.handoffInput
  match processHandoffCallbacks state nextAgent handoffInput with
  | .error e => ([], .error e)
  | .ok _ =>
    match applyHandoffInputFilter state nextAgent handoffInput with
    | .error e => ([], .error e)
    | .ok _ =>
      match updateMessagesForNewAgent state nextAgent with
      | .error e => ([], .error e)
      | .ok state1 =>
        match state1.currentAgent.core.hooks.onStart state1.currentAgent.core.name with
        | .error e =>
          ([], .error (GoError.wrap "error in OnStart hook for next agent" (GoError.plain e)))
        | .ok _ =>
          ([.handoffTaken state.currentAgent.core.name nextAgent.core.name], .ok state1)

/-- Embedding of `processStepResult`: append the step's messages to both
buffers, then either hand off, record a non-empty final output, or continue. -/
def processStepResult (state : ExecState) (stepRes : StepResult) :
    List Event × Except GoError ExecState :=
  let state1 := { state with
    messages := state.messages ++ stepRes.messages,
    resultMessages := state.resultMessages ++ stepRes.messages }
  match stepRes.nextAgent with
  | some nextAgent => handleAgentHandoff state1 stepRes nextAgent
  | none =>
    if stepRes.finalOutput ≠ "" then
      ([], .ok { state1 with
        finalOutput := stepRes.finalOutput,
        structuredOutput := stepRes.structuredOutput })
    else
      ([], .ok state1)

/-- The `for state.stepCounter < state.config.MaxTurns` loop of
`runAgentExecutionLoop`. The fuel argument is the number of remaining
permitted iterations, `MaxTurns - stepCounter`; each non-breaking iteration
increments the counter by exactly one (nothing else writes it), so the loop
condition is equivalent to the fuel running out. A step error is wrapped with
its 1-based step number. -/
def runLoopAux : Nat → ExecState → List Event × Except GoError ExecState
  | 0, state => ([], .ok state)
  | fuel + 1, state =>
    match runSingleTurn state with
    | (evs, .error e) =>
      (evs, .error (GoError.wrap ("step " ++ toString (state.stepCounter + 1) ++ " error") e))
    | (evs, .ok (stepRes, state1)) =>
      match processStepResult state1 stepRes with
      | (evs2, .error e) => (evs ++ evs2, .error e)
      | (evs2, .ok state2) =>
        if state2.finalOutput ≠ "" then (evs ++ evs2, .ok state2)
        else
          match runLoopAux fuel { state2 with stepCounter := state2.stepCounter + 1 } with
          | (evs3, r) => (evs ++ evs2 ++ evs3, r)

/-- Embedding of `runAgentExecutionLoop`: run the turn loop; an empty final
output after it means the turn budget ran out; otherwise build the Result and
fire the OnEnd hook (which receives the structured value in Go when one was
parsed — modeled by the final output string, on which no claim depends). -/
def runAgentExecutionLoop (state : ExecState) : List Event × Except GoError RunResult :=
  let fuel := (state.config.maxTurns - (state.stepCounter : Int)).toNat
  match runLoopAux fuel state with
  | (evs, .error e) => (evs, .error e)
  | (evs, .ok st) =>
    if st.finalOutput = "" then
      (evs, .error (GoError.fromBase .maxTurnsExceeded))
    else
      let result : RunResult :=
        ⟨st.finalOutput, st.structuredOutput, st.currentAgent,
         convertModelMessages st.resultMessages, st.usage⟩
      match st.currentAgent.core.hooks.onEnd st.currentAgent.core.name st.finalOutput with
      | .error e => (evs, .error (GoError.wrap "error in OnEnd hook" (GoError.plain e)))
      | .ok _ => (evs, .ok result)

/-- The body of `RunWithConfig` after validation succeeded with the (possibly
MaxTurns-normalized) configuration: input guardrails, the starting agent's
OnStart hook, the user message, then the loop. A loop failure that is
`ErrMaxTurnsExceeded` (by `errors.Is`) is returned as the bare sentinel; any
other loop failure is wrapped as an agent execution error. -/
def runAfterValidation (a : Agent) (input : String) (config1 : RunConfig) :
    List Event × Except GoError RunResult :=
  let execState : ExecState :=
    ⟨a, a, input, config1, prepareMessages a input, [], ⟨0, 0, 0⟩, 0, "", none⟩
  match applyInputGuardrails execState with
  | (evs, .error e) => (evs, .error e)
  | (evs, .ok _) =>
    match a.core.hooks.onStart a.core.name with
    | .error e => (evs, .error (GoError.wrap "error in OnStart hook" (GoError.plain e)))
    | .ok _ =>
      let execState1 :=
        if input ≠ "" then
          { execState with resultMessages :=
              execState.resultMessages ++ [⟨"user", input, [], "", ""⟩] }
        else execState
      match runAgentExecutionLoop execState1 with
      | (evs2, .error e) =>
        if e.base = .maxTurnsExceeded then
          (evs ++ evs2, .error (GoError.fromBase .maxTurnsExceeded))
        else
          (evs ++ evs2, .error (GoError.wrap "agent execution error" e))
      | (evs2, .ok result) => (evs ++ evs2, .ok result)

/-- Embedding of `RunWithConfig`: validation, then `runAfterValidation`. -/
def RunWithConfig (a : Agent) (input : String) (config : RunConfig) :
    List Event × Except GoError RunResult :=
  match validateInputsAndSetup a config with
  | .error e => ([], .error (GoError.wrap "validation error" e))
  | .ok config1 => runAfterValidation a input config1

/-- Embedding of `runner.Run`: `RunWithConfig` with the default config. -/
def Run (agent : Agent) (input : String) : List Event × Except GoError RunResult :=
  RunWithConfig agent input DefaultRunConfig

/-- A run outcome fails with the given sentinel, in the sense of `errors.Is`. -/
def failsWith (r : List Event × Except GoError RunResult) (b : ErrBase) : Prop :=
  ∃ e, r.2 = Except.error e ∧ e.base = b

/-! ### Helper lemmas about the trace -/

theorem countModelCalls_nil : countModelCalls [] = 0 := rfl

theorem countModelCalls_append (l1 l2 : List Event) :
    countModelCalls (l1 ++ l2) = countModelCalls l1 + countModelCalls l2 := by
  simp [countModelCalls, List.filter_append]

theorem countModelCalls_inputChecks (gs : List InputGuardrail) (input : String) :
    countModelCalls (gs.map fun g => Event.inputGuardrailCheck g.name input) = 0 := by
  induction gs with
  | nil => rfl
  | cons g rest ih => simp [countModelCalls, Event.isModelCall] at ih ⊢

/-! ### Helper lemmas about validation and the input-guardrail pipeline -/

/-- With non-empty static instructions and a provider, validation succeeds and
only normalizes MaxTurns. -/
theorem validateInputsAndSetup_eq (a : Agent) (config : RunConfig)
    (h1 : ¬a.core.instructions = "") (h2 : config.modelProvider.isNone = false) :
    validateInputsAndSetup a config =
      if config.maxTurns ≤ 0 then .ok { config with maxTurns := DefaultMaxTurns }
      else .ok config := by
  unfold validateInputsAndSetup
  rw [if_neg h1, if_neg (by simp [h2])]

/-- Guardrails that all allow are all checked, in order, and the pipeline
passes. -/
theorem applyInputGuardrailsAux_allow (input : String) (gs : List InputGuardrail)
    (h : ∀ g ∈ gs, ∃ r, g.check input = .ok r ∧ r.allowed = true) :
    applyInputGuardrailsAux input gs =
      (gs.map fun g => Event.inputGuardrailCheck g.name input, .ok ()) := by
  induction gs with
  | nil => rfl
  | cons g rest ih =>
    obtain ⟨r, hr, hall⟩ := h g (List.mem_cons_self g rest)
    have ihr := ih (fun g' hg' => h g' (List.mem_cons_of_mem g hg'))
    simp [applyInputGuardrailsAux, hr, hall, ihr]

/-- The first disallowing guardrail stops the pipeline with a tripwire error
carrying its message; exactly the checks up to and including it have run. -/
theorem applyInputGuardrailsAux_deny (input : String)
    (pre : List InputGuardrail) (g : InputGuardrail) (rest : List InputGuardrail) (m : String)
    (hpre : ∀ g' ∈ pre, ∃ r, g'.check input = .ok r ∧ r.allowed = true)
    (hg : g.check input = .ok ⟨false, m⟩) :
    applyInputGuardrailsAux input (pre ++ g :: rest) =
      ((pre ++ [g]).map fun g' => Event.inputGuardrailCheck g'.name input,
       .error (GoError.baseWith .guardrailTripwire m)) := by
  induction pre with
  | nil => simp [applyInputGuardrailsAux, hg]
  | cons g0 pre0 ih =>
    obtain ⟨r, hr, hall⟩ := hpre g0 (List.mem_cons_self g0 pre0)
    have ihr := ih (fun g' hg' => hpre g' (List.mem_cons_of_mem g0 hg'))
    simp [applyInputGuardrailsAux, hr, hall, ihr]

/-!
### C3: input guardrail short-circuit
-/

/-- Under the validation hypotheses, a run is its post-validation body on the
MaxTurns-normalized configuration. -/
theorem RunWithConfig_eq_afterValidation (a : Agent) (input : String) (cfg : RunConfig)
    (h1 : ¬a.core.instructions = "") (h2 : cfg.modelProvider.isNone = false) :
    RunWithConfig a input cfg =
      runAfterValidation a input
        (if cfg.maxTurns ≤ 0 then { cfg with maxTurns := DefaultMaxTurns } else cfg) := by
  unfold RunWithConfig
  rw [validateInputsAndSetup_eq a cfg h1 h2]
  by_cases h : cfg.maxTurns ≤ 0
  · rw [if_pos h, if_pos h]
  · rw [if_neg h, if_neg h]

/-- The post-validation body aborts in the guardrail pipeline when a guardrail
disallows. -/
theorem runAfterValidation_deny (a : Agent) (input : String) (config1 : RunConfig)
    (pre : List InputGuardrail) (g : InputGuardrail) (rest : List InputGuardrail) (m : String)
    (hgs : a.core.inputGuardrails = pre ++ g :: rest)
    (hpre : ∀ g' ∈ pre, ∃ r, g'.check input = .ok r ∧ r.allowed = true)
    (hg : g.check input = .ok ⟨false, m⟩) :
    runAfterValidation a input config1 =
      ((pre ++ [g]).map fun g' => Event.inputGuardrailCheck g'.name input,
       .error (GoError.baseWith .guardrailTripwire m)) := by
  unfold runAfterValidation
  dsimp only [applyInputGuardrails]
  rw [hgs, applyInputGuardrailsAux_deny input pre g rest m hpre hg]

/-- C3: if an input guardrail of the starting agent disallows (every guardrail
before it in the list allowing), the run aborts with `GuardrailTripwire`
carrying that guardrail's message; the trace consists of exactly one check per
guardrail up to and including the disallowing one, each against the raw input —
so guardrails ran once, before the first turn, and the completion service was
never invoked (zero model calls). -/
theorem inputGuardrail_shortCircuit (a : Agent) (input : String) (cfg : RunConfig)
    (pre : List InputGuardrail) (g : InputGuardrail) (rest : List InputGuardrail) (m : String)
    (hinstr : ¬a.core.instructions = "")
    (hprov : cfg.modelProvider.isNone = false)
    (hgs : a.core.inputGuardrails = pre ++ g :: rest)
    (hpre : ∀ g' ∈ pre, ∃ r, g'.check input = .ok r ∧ r.allowed = true)
    (hg : g.check input = .ok ⟨false, m⟩) :
    RunWithConfig a input cfg =
      ((pre ++ [g]).map fun g' => Event.inputGuardrailCheck g'.name input,
       .error (GoError.baseWith .guardrailTripwire m)) ∧
    countModelCalls (RunWithConfig a input cfg).1 = 0 := by
  have hrun : RunWithConfig a input cfg =
      ((pre ++ [g]).map fun g' => Event.inputGuardrailCheck g'.name input,
       .error (GoError.baseWith .guardrailTripwire m)) := by
    rw [RunWithConfig_eq_afterValidation a input cfg hinstr hprov]
    exact runAfterValidation_deny a input _ pre g rest m hgs hpre hg
  refine ⟨hrun, ?_⟩
  rw [hrun]
  exact countModelCalls_inputChecks (pre ++ [g]) input

/-- Concrete data for the C3 witness: one allowing guardrail, then a denying
one. -/
def wAllowGuardrail : InputGuardrail :=
  ⟨"allow", "always allows", fun _ => .ok ⟨true, ""⟩⟩

/-- The denying guardrail of the C3 witness. -/
def wDenyGuardrail : InputGuardrail :=
  ⟨"deny", "always denies", fun _ => .ok ⟨false, "blocked input"⟩⟩

/-- The starting agent of the C3 witness. -/
def wC3Agent : Agent :=
  Agent.mk ⟨"a", "sys", none, none, "", [], [wAllowGuardrail, wDenyGuardrail], [],
    none, baseAgentHooks⟩ []

/-- A provider usable in any witness run that should never be reached. -/
def wIdleProvider : Provider := fun _ _ _ =>
  .ok ⟨⟨"assistant", "idle", [], "", ""⟩, ⟨1, 1, 2⟩⟩

/-- A run configuration with the given provider and turn budget. -/
def wCfg (p : Provider) (n : Int) : RunConfig := ⟨"gpt-4o", some p, n, 0, none, none⟩

/-- Witness for C3 at a concrete two-guardrail agent: the run aborts with the
denying guardrail's message and zero model calls. -/
theorem inputGuardrail_shortCircuit_witness :
    RunWithConfig wC3Agent "bad" (wCfg wIdleProvider 10) =
      ([.inputGuardrailCheck "allow" "bad", .inputGuardrailCheck "deny" "bad"],
       .error (GoError.baseWith .guardrailTripwire "blocked input")) ∧
    countModelCalls (RunWithConfig wC3Agent "bad" (wCfg wIdleProvider 10)).1 = 0 :=
  inputGuardrail_shortCircuit wC3Agent "bad" (wCfg wIdleProvider 10)
    [wAllowGuardrail] wDenyGuardrail [] "blocked input"
    (by decide) rfl rfl
    (by
      intro g' hg'
      simp only [List.mem_singleton] at hg'
      subst hg'
      exact ⟨⟨true, ""⟩, rfl, rfl⟩)
    rfl

/-! ### Helper lemmas about tool rounds -/

/-- A completion-service response that requests invocations only: it carries at
least one invocation request, none of the requests fires a transfer of the
agent (every name-matching handoff decides no), and none of them names a
registered tool, so the round is answered purely with tool-not-found messages
and the run continues. -/
def ToolRoundResponse (a : Agent) (resp : ChatResponse) : Prop :=
  resp.message.toolCalls ≠ [] ∧
  (∀ tc ∈ resp.message.toolCalls, ∀ h ∈ a.handoffs,
     h.toolName = tc.function.name →
     h.shouldHandoff tc.function.arguments = .ok false) ∧
  (∀ tc ∈ resp.message.toolCalls,
     a.core.tools.find? (fun t => t.name == tc.function.name) = none)

/-- The tool message produced for an invocation request that names no
registered tool. -/
def toolNotFoundMessage (tc : ToolCall) : Message :=
  ⟨"tool", "Error: Tool " ++ sq ++ tc.function.name ++ sq ++ " not found", [], tc.id, ""⟩

/-- A request whose name-matching handoffs all decide no fires no transfer. -/
theorem scanHandoffList_none (message : Message) (tc : ToolCall) (hs : List Handoff)
    (h : ∀ hd ∈ hs, hd.toolName = tc.function.name →
         hd.shouldHandoff tc.function.arguments = .ok false) :
    scanHandoffList message tc hs = .ok none := by
  induction hs with
  | nil => rfl
  | cons hd rest ih =>
    have ihr := ih (fun hd' h1 h2 => h hd' (List.mem_cons_of_mem hd h1) h2)
    by_cases hname : hd.toolName = tc.function.name
    · have hdec := h hd (List.mem_cons_self hd rest) hname
      simp [scanHandoffList, hname, hdec, ihr]
    · simp [scanHandoffList, hname, ihr]

/-- When no request fires a transfer, the handoff scan yields none. -/
theorem scanToolCallsForHandoff_none (a : Agent) (message : Message) (tcs : List ToolCall)
    (h : ∀ tc ∈ tcs, ∀ hd ∈ a.handoffs, hd.toolName = tc.function.name →
         hd.shouldHandoff tc.function.arguments = .ok false) :
    scanToolCallsForHandoff a message tcs = .ok none := by
  induction tcs with
  | nil => rfl
  | cons tc rest ih =>
    have h1 := scanHandoffList_none message tc a.handoffs (h tc (List.mem_cons_self tc rest))
    have ihr := ih (fun tc' h2 => h tc' (List.mem_cons_of_mem tc h2))
    simp [scanToolCallsForHandoff, h1, ihr]

/-- Requests that all name missing tools produce only tool-not-found messages,
invoke nothing, and never fail. -/
theorem executeToolCalls_notFound (a : Agent) (tcs : List ToolCall)
    (h : ∀ tc ∈ tcs, a.core.tools.find? (fun t => t.name == tc.function.name) = none) :
    executeToolCalls a tcs = ([], .ok (tcs.map toolNotFoundMessage)) := by
  induction tcs with
  | nil => rfl
  | cons tc rest ih =>
    have h1 := h tc (List.mem_cons_self tc rest)
    have ihr := ih (fun tc' h2 => h tc' (List.mem_cons_of_mem tc h2))
    simp [executeToolCalls, h1, ihr, toolNotFoundMessage, Except.map]

/-- A tool-round response is processed into a step result that continues the
loop: no final output, no next agent, the assistant message followed by one
tool-not-found message per request, and no tool invocation. -/
theorem processToolCallsAndHandoffs_toolRound (a : Agent) (resp : ChatResponse)
    (htr : ToolRoundResponse a resp) :
    processToolCallsAndHandoffs a resp.message =
      ([], .ok ⟨"", none, none,
        resp.message :: resp.message.toolCalls.map toolNotFoundMessage, ⟨0, 0, 0⟩, ""⟩) := by
  obtain ⟨hne, hh, ht⟩ := htr
  have hscan := scanToolCallsForHandoff_none a resp.message resp.message.toolCalls hh
  have hexec := executeToolCalls_notFound a resp.message.toolCalls ht
  have hempty : resp.message.toolCalls.isEmpty = false := by
    cases hcs : resp.message.toolCalls with
    | nil => exact absurd hcs hne
    | cons x xs => rfl
  simp [processToolCallsAndHandoffs, hempty, hscan, hexec]

/-- A step whose completion-service response is a tool round: one model call,
usage accumulated, and the tool-round step result. -/
theorem processAgentStep_toolRound (state : ExecState) (a : Agent) (P : Provider)
    (resp : ChatResponse)
    (hca : state.currentAgent = a)
    (hprov : state.config.modelProvider = some P)
    (hresp : P state.stepCounter state.messages (settingsFor a state.config) = .ok resp)
    (htr : ToolRoundResponse a resp) :
    processAgentStep state =
      ([.modelCall state.stepCounter state.messages],
       .ok (⟨"", none, none,
              resp.message :: resp.message.toolCalls.map toolNotFoundMessage, ⟨0, 0, 0⟩, ""⟩,
            { state with usage := accumulateUsage state.usage (convertUsage resp.usage) })) := by
  have hne : resp.message.toolCalls.isEmpty = false := by
    cases hcs : resp.message.toolCalls with
    | nil => exact absurd hcs htr.1
    | cons x xs => rfl
  have hproc := processToolCallsAndHandoffs_toolRound a resp htr
  simp [processAgentStep, hca, hprov, hresp, hne, hproc]

/-- A step result that neither transfers nor finishes only grows the message
buffers. -/
theorem processStepResult_continue (state : ExecState) (stepRes : StepResult)
    (hna : stepRes.nextAgent = none) (hfo : stepRes.finalOutput = "") :
    processStepResult state stepRes =
      ([], .ok { state with
        messages := state.messages ++ stepRes.messages,
        resultMessages := state.resultMessages ++ stepRes.messages }) := by
  simp [processStepResult, hna, hfo]

theorem countModelCalls_cons_modelCall (n : Nat) (msgs : List Message) (l : List Event) :
    countModelCalls (.modelCall n msgs :: l) = countModelCalls l + 1 := by
  simp [countModelCalls, Event.isModelCall, List.filter]

/-!
### C1: the turn budget
-/

/-- When every completion-service response is a tool round, the loop consumes
all its fuel, makes exactly one model call per unit of fuel, and ends with the
final output still empty and the turn counter advanced by the fuel. -/
theorem runLoopAux_allToolRounds (a : Agent) (P : Provider)
    (hins : ∃ s, a.getSystemPrompt = .ok s)
    (hP : ∀ n msgs settings, ∃ resp, P n msgs settings = .ok resp ∧ ToolRoundResponse a resp) :
    ∀ fuel state, state.currentAgent = a → state.finalOutput = "" →
      state.config.modelProvider = some P →
      ∃ evs st, runLoopAux fuel state = (evs, .ok st) ∧ st.finalOutput = "" ∧
        st.stepCounter = state.stepCounter + fuel ∧ countModelCalls evs = fuel := by
  intro fuel
  induction fuel with
  | zero =>
    intro state _ h2 _
    exact ⟨[], state, rfl, h2, rfl, rfl⟩
  | succ f ih =>
    intro state hca hfo hprov
    obtain ⟨ins, hins'⟩ := hins
    obtain ⟨resp, hresp, htr⟩ :=
      hP state.stepCounter (refreshSystemMessage ins state.messages)
        (settingsFor a state.config)
    have hgs : state.currentAgent.getSystemPrompt = .ok ins := by rw [hca]; exact hins'
    have h1 : runSingleTurn state =
        processAgentStep { state with messages := refreshSystemMessage ins state.messages } := by
      unfold runSingleTurn
      rw [hgs]
    have h2 := processAgentStep_toolRound
      { state with messages := refreshSystemMessage ins state.messages } a P resp
      hca hprov hresp htr
    dsimp only at h2
    have h3 := processStepResult_continue
      ({ state with
          messages := refreshSystemMessage ins state.messages,
          usage := accumulateUsage state.usage (convertUsage resp.usage) })
      ⟨"", none, none,
       resp.message :: resp.message.toolCalls.map toolNotFoundMessage, ⟨0, 0, 0⟩, ""⟩
      rfl rfl
    dsimp only at h3
    obtain ⟨evs3, st, hrec, hfo3, hsc3, hcnt3⟩ :=
      ih { state with
            messages := refreshSystemMessage ins state.messages ++
              (resp.message :: resp.message.toolCalls.map toolNotFoundMessage),
            resultMessages := state.resultMessages ++
              (resp.message :: resp.message.toolCalls.map toolNotFoundMessage),
            usage := accumulateUsage state.usage (convertUsage resp.usage),
            stepCounter := state.stepCounter + 1 }
        hca hfo hprov
    dsimp only at hsc3
    refine ⟨.modelCall state.stepCounter (refreshSystemMessage ins state.messages) :: evs3,
      st, ?_, hfo3, by omega, ?_⟩
    · show runLoopAux (f + 1) state = _
      simp only [runLoopAux]
      rw [h1, h2]
      dsimp only
      rw [h3]
      dsimp only
      rw [if_neg (not_not_intro hfo), hrec]
      simp
    · rw [countModelCalls_cons_modelCall]
      omega

/-- The fresh execution state `RunWithConfig` builds. -/
def initialState (a : Agent) (input : String) (config1 : RunConfig) : ExecState :=
  ⟨a, a, input, config1, prepareMessages a input, [], ⟨0, 0, 0⟩, 0, "", none⟩

/-- The execution state entering the loop: the user message has been added to
the result history when the input is non-empty. -/
def initialState1 (a : Agent) (input : String) (config1 : RunConfig) : ExecState :=
  if input ≠ "" then
    { initialState a input config1 with
      resultMessages := [⟨"user", input, [], "", ""⟩] }
  else initialState a input config1

theorem initialState1_currentAgent (a : Agent) (input : String) (config1 : RunConfig) :
    (initialState1 a input config1).currentAgent = a := by
  unfold initialState1 initialState
  split <;> rfl

theorem initialState1_finalOutput (a : Agent) (input : String) (config1 : RunConfig) :
    (initialState1 a input config1).finalOutput = "" := by
  unfold initialState1 initialState
  split <;> rfl

theorem initialState1_stepCounter (a : Agent) (input : String) (config1 : RunConfig) :
    (initialState1 a input config1).stepCounter = 0 := by
  unfold initialState1 initialState
  split <;> rfl

theorem initialState1_config (a : Agent) (input : String) (config1 : RunConfig) :
    (initialState1 a input config1).config = config1 := by
  unfold initialState1 initialState
  split <;> rfl

/-- With no input guardrails and a succeeding OnStart hook, the post-validation
body is the loop on the initial state (with its MaxTurnsExceeded special
case). -/
theorem runAfterValidation_noGuardrails (a : Agent) (input : String) (config1 : RunConfig)
    (hgr : a.core.inputGuardrails = [])
    (hstart : a.core.hooks.onStart a.core.name = .ok ()) :
    runAfterValidation a input config1 =
      match runAgentExecutionLoop (initialState1 a input config1) with
      | (evs2, .error e) =>
        if e.base = .maxTurnsExceeded then
          (evs2, .error (GoError.fromBase .maxTurnsExceeded))
        else
          (evs2, .error (GoError.wrap "agent execution error" e))
      | (evs2, .ok result) => (evs2, .ok result) := by
  simp only [runAfterValidation, applyInputGuardrails, initialState1, initialState]
  rw [hgr]
  simp only [applyInputGuardrailsAux]
  rw [hstart]
  by_cases hinp : input = ""
  · simp [hinp]
  · simp only [ne_eq, hinp, not_false_eq_true, if_true, if_pos]
    simp

/-- C1: with `MaxTurns = N ≥ 1` and a completion service whose every response
contains only invocation requests (none of which transfers or matches a
registered tool), the run fails with the `MaxTurnsExceeded` sentinel after
exactly `N` completed turns: the trace holds exactly `N` model calls, neither
fewer nor more. -/
theorem maxTurnsExceeded_exactTurns (a : Agent) (P : Provider) (input : String)
    (cfg : RunConfig) (N : Int)
    (hN : 0 < N) (hmax : cfg.maxTurns = N) (hprov : cfg.modelProvider = some P)
    (hinstr : ¬a.core.instructions = "")
    (hgr : a.core.inputGuardrails = [])
    (hstart : a.core.hooks.onStart a.core.name = .ok ())
    (hins : ∃ s, a.getSystemPrompt = .ok s)
    (hP : ∀ n msgs settings, ∃ resp, P n msgs settings = .ok resp ∧ ToolRoundResponse a resp) :
    (RunWithConfig a input cfg).2 = .error (GoError.fromBase .maxTurnsExceeded) ∧
    countModelCalls (RunWithConfig a input cfg).1 = N.toNat := by
  have hprovF : cfg.modelProvider.isNone = false := by rw [hprov]; rfl
  have hmtpos : ¬cfg.maxTurns ≤ 0 := by rw [hmax]; omega
  have hveq := RunWithConfig_eq_afterValidation a input cfg hinstr hprovF
  rw [if_neg hmtpos] at hveq
  obtain ⟨evs, st, hloop, hfo', hsc, hcnt⟩ :=
    runLoopAux_allToolRounds a P hins hP
      (((initialState1 a input cfg).config.maxTurns -
        ((initialState1 a input cfg).stepCounter : Int)).toNat)
      (initialState1 a input cfg)
      (initialState1_currentAgent a input cfg)
      (initialState1_finalOutput a input cfg)
      (by rw [initialState1_config]; exact hprov)
  have hloopRun : runAgentExecutionLoop (initialState1 a input cfg) =
      (evs, .error (GoError.fromBase .maxTurnsExceeded)) := by
    simp only [runAgentExecutionLoop]
    rw [hloop]
    dsimp only
    rw [if_pos hfo']
  have hrun : RunWithConfig a input cfg =
      (evs, .error (GoError.fromBase .maxTurnsExceeded)) := by
    rw [hveq, runAfterValidation_noGuardrails a input cfg hgr hstart, hloopRun]
    simp [GoError.fromBase]
  have hfuel : ((initialState1 a input cfg).config.maxTurns -
      ((initialState1 a input cfg).stepCounter : Int)).toNat = N.toNat := by
    rw [initialState1_config, initialState1_stepCounter, hmax]
    simp
  refine ⟨by rw [hrun], ?_⟩
  rw [hrun]
  rw [hcnt, hfuel]

/-- A step whose response carries no invocation requests, for an agent without
a strict output shape and without output guardrails: the content becomes the
candidate final output. -/
theorem processAgentStep_final (state : ExecState) (a : Agent) (P : Provider)
    (resp : ChatResponse)
    (hca : state.currentAgent = a)
    (hprov : state.config.modelProvider = some P)
    (hresp : P state.stepCounter state.messages (settingsFor a state.config) = .ok resp)
    (hnt : resp.message.toolCalls = [])
    (hout : a.core.outputType = none)
    (hog : a.core.outputGuardrails = []) :
    processAgentStep state =
      ([.modelCall state.stepCounter state.messages],
       .ok (⟨resp.message.content, none, none, [resp.message], convertUsage resp.usage, ""⟩,
            { state with usage := accumulateUsage state.usage (convertUsage resp.usage) })) := by
  simp [processAgentStep, hca, hprov, hresp, hnt, processFinalOutput, hout, hog]

/-- A step result with a non-empty final output and no transfer records the
final output and stops the loop. -/
theorem processStepResult_final (state : ExecState) (stepRes : StepResult)
    (hna : stepRes.nextAgent = none) (hfo : ¬stepRes.finalOutput = "") :
    processStepResult state stepRes =
      ([], .ok { state with
        messages := state.messages ++ stepRes.messages,
        resultMessages := state.resultMessages ++ stepRes.messages,
        finalOutput := stepRes.finalOutput,
        structuredOutput := stepRes.structuredOutput }) := by
  simp [processStepResult, hna, hfo]

/-- The agent of the C1 witness. -/
def wC1Agent : Agent := AgentNew "a" "sys"

/-- The provider of the C1 witness: every response carries one invocation
request for an unregistered tool. -/
def wC1Provider : Provider := fun _ _ _ =>
  .ok ⟨⟨"assistant", "", [⟨"call1", "function", ⟨"nope", "{}", .ok []⟩⟩], "", ""⟩,
    ⟨100, 50, 150⟩⟩

/-- Witness for C1 at `N = 3`: the run fails with `MaxTurnsExceeded` and the
trace shows exactly three model calls. -/
theorem maxTurnsExceeded_exactTurns_witness :
    (RunWithConfig wC1Agent "test" (wCfg wC1Provider 3)).2 =
      .error (GoError.fromBase .maxTurnsExceeded) ∧
    countModelCalls (RunWithConfig wC1Agent "test" (wCfg wC1Provider 3)).1 = (3 : Int).toNat :=
  maxTurnsExceeded_exactTurns wC1Agent wC1Provider "test" (wCfg wC1Provider 3) 3
    (by omega) rfl rfl (by decide) rfl rfl ⟨"sys", rfl⟩
    (fun n msgs settings =>
      ⟨⟨⟨"assistant", "", [⟨"call1", "function", ⟨"nope", "{}", .ok []⟩⟩], "", ""⟩,
        ⟨100, 50, 150⟩⟩, rfl,
       by
        refine ⟨by simp, ?_, ?_⟩
        · intro tc _ h hmem
          simp [wC1Agent, AgentNew, Agent.handoffs] at hmem
        · intro tc _
          rfl⟩)

/-!
### C2: a response without invocation requests ends the run
-/

/-- When the first `j` responses are tool rounds and the response of turn `j`
carries no invocation requests and non-empty content `c` (the agent declaring
no strict shape and no output guardrails), the loop stops at turn `j` with
final output `c`, having made exactly `j + 1` model calls. -/
theorem runLoopAux_stopsAt (a : Agent) (P : Provider) (c : String) (j : Nat)
    (hins : ∃ s, a.getSystemPrompt = .ok s)
    (hc : ¬c = "")
    (hout : a.core.outputType = none)
    (hog : a.core.outputGuardrails = [])
    (hP1 : ∀ n msgs settings, n < j →
      ∃ resp, P n msgs settings = .ok resp ∧ ToolRoundResponse a resp)
    (hP2 : ∀ msgs settings, ∃ resp, P j msgs settings = .ok resp ∧
      resp.message.toolCalls = [] ∧ resp.message.content = c) :
    ∀ fuel state, state.currentAgent = a → state.finalOutput = "" →
      state.config.modelProvider = some P →
      state.stepCounter ≤ j → j < state.stepCounter + fuel →
      ∃ evs st, runLoopAux fuel state = (evs, .ok st) ∧ st.finalOutput = c ∧
        st.currentAgent = a ∧ st.structuredOutput = none ∧
        countModelCalls evs = (j - state.stepCounter) + 1 := by
  intro fuel
  induction fuel with
  | zero =>
    intro state _ _ _ hle hlt
    omega
  | succ f ih =>
    intro state hca hfo hprov hle hlt
    obtain ⟨ins, hins'⟩ := hins
    have hgs : state.currentAgent.getSystemPrompt = .ok ins := by rw [hca]; exact hins'
    have h1 : runSingleTurn state =
        processAgentStep { state with messages := refreshSystemMessage ins state.messages } := by
      unfold runSingleTurn
      rw [hgs]
    by_cases hj : state.stepCounter = j
    · -- the final turn
      obtain ⟨resp, hresp, hnt, hcont⟩ :=
        hP2 (refreshSystemMessage ins state.messages) (settingsFor a state.config)
      have h2 := processAgentStep_final
        ({ state with messages := refreshSystemMessage ins state.messages }) a P resp
        hca hprov (by dsimp only; rw [hj]; exact hresp) hnt hout hog
      dsimp only at h2
      have hcne : ¬resp.message.content = "" := by rw [hcont]; exact hc
      have h3 := processStepResult_final
        ({ state with
            messages := refreshSystemMessage ins state.messages,
            usage := accumulateUsage state.usage (convertUsage resp.usage) })
        ⟨resp.message.content, none, none, [resp.message], convertUsage resp.usage, ""⟩
        rfl hcne
      dsimp only at h3
      refine ⟨[.modelCall state.stepCounter (refreshSystemMessage ins state.messages)],
        ({ state with
            messages := refreshSystemMessage ins state.messages ++ [resp.message],
            resultMessages := state.resultMessages ++ [resp.message],
            usage := accumulateUsage state.usage (convertUsage resp.usage),
            finalOutput := resp.message.content,
            structuredOutput := none }),
        ?_, hcont, hca, rfl, ?_⟩
      · show runLoopAux (f + 1) state = _
        simp only [runLoopAux]
        rw [h1, h2]
        dsimp only
        rw [h3]
        dsimp only
        rw [if_pos hcne]
        simp
      · rw [hj]
        simp [countModelCalls, Event.isModelCall, List.filter]
    · -- a tool round before the final turn
      have hltj : state.stepCounter < j := by omega
      obtain ⟨resp, hresp, htr⟩ :=
        hP1 state.stepCounter (refreshSystemMessage ins state.messages)
          (settingsFor a state.config) hltj
      have h2 := processAgentStep_toolRound
        { state with messages := refreshSystemMessage ins state.messages } a P resp
        hca hprov hresp htr
      dsimp only at h2
      have h3 := processStepResult_continue
        ({ state with
            messages := refreshSystemMessage ins state.messages,
            usage := accumulateUsage state.usage (convertUsage resp.usage) })
        ⟨"", none, none,
         resp.message :: resp.message.toolCalls.map toolNotFoundMessage, ⟨0, 0, 0⟩, ""⟩
        rfl rfl
      dsimp only at h3
      obtain ⟨evs3, st, hrec, hfoc, hcac, hsoc, hcnt3⟩ :=
        ih { state with
              messages := refreshSystemMessage ins state.messages ++
                (resp.message :: resp.message.toolCalls.map toolNotFoundMessage),
              resultMessages := state.resultMessages ++
                (resp.message :: resp.message.toolCalls.map toolNotFoundMessage),
              usage := accumulateUsage state.usage (convertUsage resp.usage),
              stepCounter := state.stepCounter + 1 }
          hca hfo hprov (by dsimp only; omega) (by dsimp only; omega)
      dsimp only at hcnt3
      refine ⟨.modelCall state.stepCounter (refreshSystemMessage ins state.messages) :: evs3,
        st, ?_, hfoc, hcac, hsoc, ?_⟩
      · show runLoopAux (f + 1) state = _
        simp only [runLoopAux]
        rw [h1, h2]
        dsimp only
        rw [h3]
        dsimp only
        rw [if_neg (not_not_intro hfo), hrec]
        simp
      · rw [countModelCalls_cons_modelCall]
        omega

/-- Amended C2: whenever a turn's response contains no invocation requests and
its content is non-empty, the engine records that content as the final output
and stops the loop at that turn (exactly `j + 1` model calls when it is turn
`j`), returning a Result whose FinalOutput equals that content. The amendment
restricts the original claim to non-empty content: the engine uses the empty
string as its internal no-final-output sentinel, so an empty text response
does not stop the loop. -/
theorem finalOutput_stopsLoop (a : Agent) (P : Provider) (input c : String)
    (cfg : RunConfig) (j : Nat)
    (hprov : cfg.modelProvider = some P)
    (hNpos : 0 < cfg.maxTurns) (hjN : (j : Int) < cfg.maxTurns)
    (hinstr : ¬a.core.instructions = "")
    (hgr : a.core.inputGuardrails = [])
    (hstart : a.core.hooks.onStart a.core.name = .ok ())
    (hend : a.core.hooks.onEnd a.core.name c = .ok ())
    (hins : ∃ s, a.getSystemPrompt = .ok s)
    (hc : ¬c = "")
    (hout : a.core.outputType = none)
    (hog : a.core.outputGuardrails = [])
    (hP1 : ∀ n msgs settings, n < j →
      ∃ resp, P n msgs settings = .ok resp ∧ ToolRoundResponse a resp)
    (hP2 : ∀ msgs settings, ∃ resp, P j msgs settings = .ok resp ∧
      resp.message.toolCalls = [] ∧ resp.message.content = c) :
    ∃ evs res, RunWithConfig a input cfg = (evs, .ok res) ∧
      res.finalOutput = c ∧ res.structuredOutput = none ∧
      countModelCalls evs = j + 1 := by
  have hprovF : cfg.modelProvider.isNone = false := by rw [hprov]; rfl
  have hmtpos : ¬cfg.maxTurns ≤ 0 := by omega
  have hveq := RunWithConfig_eq_afterValidation a input cfg hinstr hprovF
  rw [if_neg hmtpos] at hveq
  obtain ⟨evs, st, hloop, hfoc, hcac, hsoc, hcnt⟩ :=
    runLoopAux_stopsAt a P c j hins hc hout hog hP1 hP2
      (((initialState1 a input cfg).config.maxTurns -
        ((initialState1 a input cfg).stepCounter : Int)).toNat)
      (initialState1 a input cfg)
      (initialState1_currentAgent a input cfg)
      (initialState1_finalOutput a input cfg)
      (by rw [initialState1_config]; exact hprov)
      (by rw [initialState1_stepCounter]; omega)
      (by rw [initialState1_stepCounter, initialState1_config]; omega)
  have hfne : ¬st.finalOutput = "" := by rw [hfoc]; exact hc
  have hendst : st.currentAgent.core.hooks.onEnd st.currentAgent.core.name st.finalOutput =
      .ok () := by rw [hcac, hfoc]; exact hend
  have hloopRun : runAgentExecutionLoop (initialState1 a input cfg) =
      (evs, .ok ⟨st.finalOutput, st.structuredOutput, st.currentAgent,
        convertModelMessages st.resultMessages, st.usage⟩) := by
    simp only [runAgentExecutionLoop]
    rw [hloop]
    dsimp only
    rw [if_neg hfne]
    simp only [hendst]
  refine ⟨evs, ⟨st.finalOutput, st.structuredOutput, st.currentAgent,
    convertModelMessages st.resultMessages, st.usage⟩, ?_, hfoc, hsoc, ?_⟩
  · rw [hveq, runAfterValidation_noGuardrails a input cfg hgr hstart, hloopRun]
  · rw [hcnt, initialState1_stepCounter]
    omega

/-- The provider of the C2 witness and the single-turn scenario: plain text
`"first"` on every call. -/
def wC2Provider : Provider := fun _ _ _ =>
  .ok ⟨⟨"assistant", "first", [], "", ""⟩, ⟨100, 50, 150⟩⟩

/-- The agent of the C2 witness. -/
def wC2Agent : Agent := AgentNew "a" "sys"

/-- Witness for the amended C2, which is also the spec's single-turn scenario:
input `"test"`, first response plain text `"first"` and no tool calls, so the
run returns FinalOutput `"first"` after exactly one model call, and the
returned history is exactly the user message followed by the assistant
message. -/
theorem finalOutput_stopsLoop_witness :
    (∃ evs res, RunWithConfig wC2Agent "test" (wCfg wC2Provider 10) = (evs, .ok res) ∧
      res.finalOutput = "first" ∧ res.structuredOutput = none ∧
      countModelCalls evs = 0 + 1) ∧
    ((RunWithConfig wC2Agent "test" (wCfg wC2Provider 10)).2.toOption.map
      (fun res => res.history)) =
      some [⟨"user", "test", [], "", ""⟩, ⟨"assistant", "first", [], "", ""⟩] :=
  ⟨finalOutput_stopsLoop wC2Agent wC2Provider "test" "first" (wCfg wC2Provider 10) 0
    rfl (by decide) (by decide) (by decide) rfl rfl rfl ⟨"sys", rfl⟩ (by decide) rfl rfl
    (fun n _ _ hn => absurd hn (Nat.not_lt_zero n))
    (fun msgs settings =>
      ⟨⟨⟨"assistant", "first", [], "", ""⟩, ⟨100, 50, 150⟩⟩, rfl, rfl, rfl⟩),
   rfl⟩

/-- The provider of the C2 counterexample: an empty-text response with no
invocation requests on every call. -/
def cexC2Provider : Provider := fun _ _ _ =>
  .ok ⟨⟨"assistant", "", [], "", ""⟩, ⟨100, 50, 150⟩⟩

/-- Counterexample to C2 as stated: the counterexample provider replies, on
every call, with a response that contains no invocation requests (content is
the empty string), yet the run with `MaxTurns = 1` does not stop at that turn
with a Result whose FinalOutput is that content — it fails with
`MaxTurnsExceeded`, because the engine treats empty final output as "no final
output yet" and keeps looping. -/
theorem finalOutput_stopsLoop_counterexample :
    cexC2Provider = (fun _ _ _ =>
      .ok ⟨⟨"assistant", "", [], "", ""⟩, ⟨100, 50, 150⟩⟩) ∧
    (RunWithConfig wC2Agent "test" (wCfg cexC2Provider 1)).2 =
      .error (GoError.fromBase .maxTurnsExceeded) :=
  ⟨rfl, rfl⟩

/-!
### C4: transfer continuity
-/

/-- Filtering the non-system messages leaves no system message behind. -/
theorem filter_system_filter_ne (l : List Message) :
    (l.filter (fun msg => msg.role ≠ "system")).filter (fun msg => msg.role = "system") = [] := by
  induction l with
  | nil => rfl
  | cons msg rest ih =>
    by_cases hrole : msg.role = "system"
    · simp [List.filter, hrole, ih]
    · simp [List.filter, hrole, ih]

/-- The handoff callbacks succeed when the matched handoff's callback, the
config callback and the OnHandoff hook all succeed. -/
theorem processHandoffCallbacks_ok (state : ExecState) (b : Agent) (hi : String)
    (hfind : ∀ h ∈ state.currentAgent.handoffs, h.target.core.name = b.core.name →
      h.onHandoff hi = .ok ())
    (hcb : state.config.handoffCallback = none)
    (hoh : b.core.hooks.onHandoff b.core.name state.currentAgent.core.name = .ok ()) :
    processHandoffCallbacks state b hi = .ok () := by
  unfold processHandoffCallbacks
  cases hf : state.currentAgent.handoffs.find?
      (fun h => h.target.core.name == b.core.name) with
  | none => simp [hcb, hoh]
  | some h =>
    have hmem := List.mem_of_find?_eq_some hf
    have hpred : h.target.core.name = b.core.name := by
      have := List.find?_some hf
      exact beq_iff_eq.mp this
    have honh := hfind h hmem hpred
    simp [processTargetHandoff, honh, hcb, hoh]

/-- A successful handoff replaces the system message with the target's
instructions, keeps every non-system message, swaps the current agent, and
touches nothing else in the state. -/
theorem handleAgentHandoff_ok (state : ExecState) (stepRes : StepResult) (b : Agent)
    (sb : String)
    (hfind : ∀ h ∈ state.currentAgent.handoffs, h.target.core.name = b.core.name →
      h.onHandoff stepRes.handoffInput = .ok ())
    (hcb : state.config.handoffCallback = none)
    (hfil : state.config.handoffInputFilter = none)
    (hoh : b.core.hooks.onHandoff b.core.name state.currentAgent.core.name = .ok ())
    (hos : b.core.hooks.onStart b.core.name = .ok ())
    (hsb : b.getSystemPrompt = .ok sb) :
    handleAgentHandoff state stepRes b =
      ([.handoffTaken state.currentAgent.core.name b.core.name],
       .ok ({ state with
          currentAgent := b,
          messages := (⟨"system", sb, [], "", ""⟩ : Message) ::
            state.messages.filter (fun msg => msg.role ≠ "system") })) := by
  have hc := processHandoffCallbacks_ok state b stepRes.handoffInput hfind hcb hoh
  simp [handleAgentHandoff, hc, applyHandoffInputFilter, hfil,
    updateMessagesForNewAgent, hsb, hos]

/-- C4: after every transfer taken during a run, the message buffer starts with
a single system message holding the target agent's computed instructions (the
old system message is replaced, never kept alongside: the buffer holds exactly
one system message), all prior non-system messages (including this turn's
assistant message) are retained in order, the target becomes the current agent,
and the turn counter is not reset — the transfer step leaves it untouched, so
the loop continues counting from where it was. -/
theorem transfer_replacesSystemMessage (state : ExecState) (stepRes : StepResult)
    (b : Agent) (sb : String)
    (hnext : stepRes.nextAgent = some b)
    (hfind : ∀ h ∈ state.currentAgent.handoffs, h.target.core.name = b.core.name →
      h.onHandoff stepRes.handoffInput = .ok ())
    (hcb : state.config.handoffCallback = none)
    (hfil : state.config.handoffInputFilter = none)
    (hoh : b.core.hooks.onHandoff b.core.name state.currentAgent.core.name = .ok ())
    (hos : b.core.hooks.onStart b.core.name = .ok ())
    (hsb : b.getSystemPrompt = .ok sb) :
    ∃ st', processStepResult state stepRes =
        ([.handoffTaken state.currentAgent.core.name b.core.name], .ok st') ∧
      st'.messages = (⟨"system", sb, [], "", ""⟩ : Message) ::
        ((state.messages ++ stepRes.messages).filter (fun msg => msg.role ≠ "system")) ∧
      (st'.messages.filter (fun msg => msg.role = "system")).length = 1 ∧
      st'.stepCounter = state.stepCounter ∧
      st'.currentAgent = b ∧
      st'.finalOutput = state.finalOutput := by
  have hh := handleAgentHandoff_ok
    ({ state with
        messages := state.messages ++ stepRes.messages,
        resultMessages := state.resultMessages ++ stepRes.messages })
    stepRes b sb hfind hcb hfil hoh hos hsb
  dsimp only at hh
  refine ⟨({ state with
      currentAgent := b,
      messages := (⟨"system", sb, [], "", ""⟩ : Message) ::
        ((state.messages ++ stepRes.messages).filter (fun msg => msg.role ≠ "system")),
      resultMessages := state.resultMessages ++ stepRes.messages }),
    ?_, rfl, ?_, rfl, rfl, rfl⟩
  · show processStepResult state stepRes = _
    unfold processStepResult
    rw [hnext]
    exact hh
  · dsimp only
    simp [List.filter, filter_system_filter_ne]

/-- Target agent of the C4 witness. -/
def wC4AgentB : Agent := AgentNew "b" "target instructions"

/-- The transfer of the C4 witness. -/
def wC4Handoff : Handoff :=
  ⟨"transfer_to_b", "to b", emptySchema, fun _ => .ok true, fun _ => .ok (), wC4AgentB⟩

/-- Source agent of the C4 witness. -/
def wC4AgentA : Agent :=
  Agent.mk ⟨"a", "source instructions", none, none, "", [], [], [], none, baseAgentHooks⟩
    [wC4Handoff]

/-- A mid-run state of the C4 witness: system + user messages, turn counter 3. -/
def wC4State : ExecState :=
  ⟨wC4AgentA, wC4AgentA, "hi", wCfg wIdleProvider 10,
   [⟨"system", "source instructions", [], "", ""⟩, ⟨"user", "hi", [], "", ""⟩],
   [⟨"user", "hi", [], "", ""⟩], ⟨100, 50, 150⟩, 3, "", none⟩

/-- The transfer step result of the C4 witness (the assistant message carries
the transfer-shaped invocation request). -/
def wC4StepRes : StepResult :=
  ⟨"", none, some wC4AgentB,
   [⟨"assistant", "", [⟨"c1", "function", ⟨"transfer_to_b", "{}", .ok []⟩⟩], "", ""⟩],
   ⟨0, 0, 0⟩, "{}"⟩

/-- Witness for C4 at a concrete mid-run transfer: the buffer becomes the
target's system message followed by the retained non-system messages, exactly
one system message remains, and the turn counter stays at 3. -/
theorem transfer_replacesSystemMessage_witness :
    ∃ st', processStepResult wC4State wC4StepRes =
        ([.handoffTaken "a" "b"], .ok st') ∧
      st'.messages = (⟨"system", "target instructions", [], "", ""⟩ : Message) ::
        ((wC4State.messages ++ wC4StepRes.messages).filter (fun msg => msg.role ≠ "system")) ∧
      (st'.messages.filter (fun msg => msg.role = "system")).length = 1 ∧
      st'.stepCounter = wC4State.stepCounter ∧
      st'.currentAgent = wC4AgentB ∧
      st'.finalOutput = wC4State.finalOutput :=
  transfer_replacesSystemMessage wC4State wC4StepRes wC4AgentB "target instructions"
    rfl
    (by
      intro h hmem _
      simp only [wC4State, wC4AgentA, Agent.handoffs, List.mem_singleton] at hmem
      subst hmem
      rfl)
    rfl rfl rfl rfl rfl

/-!
### C5: only the first transfer in list order is honored
-/

/-- The first name-matching handoff that decides yes (with an empty declared
schema) wins the inner scan. -/
theorem scanHandoffList_fires (message : Message) (tc : ToolCall)
    (hs1 : List Handoff) (h : Handoff) (hs2 : List Handoff)
    (hpre : ∀ hd ∈ hs1, hd.toolName = tc.function.name →
      hd.shouldHandoff tc.function.arguments = .ok false)
    (hmatch : h.toolName = tc.function.name)
    (hyes : h.shouldHandoff tc.function.arguments = .ok true)
    (hschema : h.inputJSONSchema.isEmpty = true) :
    scanHandoffList message tc (hs1 ++ h :: hs2) =
      .ok (some ⟨"", none, some h.target, [message], ⟨0, 0, 0⟩, tc.function.arguments⟩) := by
  induction hs1 with
  | nil => simp [scanHandoffList, hmatch, hyes, hschema]
  | cons hd rest ih =>
    have ihr := ih (fun hd' h1 h2 => hpre hd' (List.mem_cons_of_mem hd h1) h2)
    by_cases hname : hd.toolName = tc.function.name
    · have hdec := hpre hd (List.mem_cons_self hd rest) hname
      simp [scanHandoffList, hname, hdec, ihr]
    · simp [scanHandoffList, hname, ihr]

/-- The outer scan returns the first request that fires a transfer. -/
theorem scanToolCallsForHandoff_fires (a : Agent) (message : Message)
    (pre post : List ToolCall) (tc : ToolCall) (r : StepResult)
    (hpre : ∀ tc0 ∈ pre, scanHandoffList message tc0 a.handoffs = .ok none)
    (htc : scanHandoffList message tc a.handoffs = .ok (some r)) :
    scanToolCallsForHandoff a message (pre ++ tc :: post) = .ok (some r) := by
  induction pre with
  | nil => simp [scanToolCallsForHandoff, htc]
  | cons tc0 rest ih =>
    have h0 := hpre tc0 (List.mem_cons_self tc0 rest)
    have ihr := ih (fun tc' h' => hpre tc' (List.mem_cons_of_mem tc0 h'))
    simp [scanToolCallsForHandoff, h0, ihr]

/-- C5: when a response carries several invocation requests and more than one
could fire a transfer, only the first match in list order is honored: the
result transfers to that handoff's target, every other request of the response
(the `post` suffix is fully unconstrained) is discarded, no tool is invoked
(the trace is empty) and no tool-role message is produced (the step keeps just
the assistant message). -/
theorem firstTransferWins (a : Agent) (message : Message)
    (pre post : List ToolCall) (tc : ToolCall)
    (hs1 : List Handoff) (h : Handoff) (hs2 : List Handoff)
    (htcs : message.toolCalls = pre ++ tc :: post)
    (hpre : ∀ tc0 ∈ pre, ∀ hd ∈ a.handoffs, hd.toolName = tc0.function.name →
      hd.shouldHandoff tc0.function.arguments = .ok false)
    (hhs : a.handoffs = hs1 ++ h :: hs2)
    (hpreh : ∀ hd ∈ hs1, hd.toolName = tc.function.name →
      hd.shouldHandoff tc.function.arguments = .ok false)
    (hmatch : h.toolName = tc.function.name)
    (hyes : h.shouldHandoff tc.function.arguments = .ok true)
    (hschema : h.inputJSONSchema.isEmpty = true) :
    processToolCallsAndHandoffs a message =
      ([], .ok ⟨"", none, some h.target, [message], ⟨0, 0, 0⟩, tc.function.arguments⟩) := by
  have hscan0 : ∀ tc0 ∈ pre, scanHandoffList message tc0 a.handoffs = .ok none :=
    fun tc0 h0 => scanHandoffList_none message tc0 a.handoffs (hpre tc0 h0)
  have hfire : scanHandoffList message tc a.handoffs =
      .ok (some ⟨"", none, some h.target, [message], ⟨0, 0, 0⟩, tc.function.arguments⟩) := by
    rw [hhs]
    exact scanHandoffList_fires message tc hs1 h hs2 hpreh hmatch hyes hschema
  have hscan := scanToolCallsForHandoff_fires a message pre post tc _ hscan0 hfire
  have hne : message.toolCalls.isEmpty = false := by
    rw [htcs]; cases pre <;> rfl
  rw [processToolCallsAndHandoffs, hne]
  simp only [Bool.false_eq_true, if_false]
  rw [htcs, hscan]

/-- Second target agent of the C5 witness. -/
def wC5AgentC : Agent := AgentNew "c" "other instructions"

/-- A second transfer declaration, also willing to fire. -/
def wC5HandoffC : Handoff :=
  ⟨"transfer_to_c", "to c", emptySchema, fun _ => .ok true, fun _ => .ok (), wC5AgentC⟩

/-- Source agent of the C5 witness with two registered transfers. -/
def wC5AgentA : Agent :=
  Agent.mk ⟨"a", "source instructions", none, none, "", [], [], [], none, baseAgentHooks⟩
    [wC4Handoff, wC5HandoffC]

/-- The response message of the C5 witness: two transfer-shaped requests, both
of which would fire. -/
def wC5Message : Message :=
  ⟨"assistant", "", [⟨"c1", "function", ⟨"transfer_to_b", "{}", .ok []⟩⟩,
                     ⟨"c2", "function", ⟨"transfer_to_c", "{}", .ok []⟩⟩], "", ""⟩

/-- Witness for C5: with two fireable transfer requests in one response, the
step transfers to the first one's target, produces no tool message and no tool
invocation. -/
theorem firstTransferWins_witness :
    processToolCallsAndHandoffs wC5AgentA wC5Message =
      ([], .ok ⟨"", none, some wC4AgentB, [wC5Message], ⟨0, 0, 0⟩, "{}"⟩) :=
  firstTransferWins wC5AgentA wC5Message
    [] [⟨"c2", "function", ⟨"transfer_to_c", "{}", .ok []⟩⟩]
    ⟨"c1", "function", ⟨"transfer_to_b", "{}", .ok []⟩⟩
    [] wC4Handoff [wC5HandoffC]
    rfl
    (by intro tc0 h0; simp at h0)
    rfl
    (by intro hd h0; simp at h0)
    rfl rfl rfl

/-!
### C9: transfer payload validation against the declared schema
-/

/-- The iteration over required fields reports the first missing one. -/
theorem validateRequiredFieldsAux_missing (data : JsonObj)
    (req1 req2 : List String) (f : String)
    (hpre : ∀ f0 ∈ req1, (data.lookup f0).isSome = true)
    (hf : (data.lookup f).isSome = false) :
    validateRequiredFieldsAux data (req1 ++ f :: req2) =
      .error ("missing required field: " ++ f) := by
  induction req1 with
  | nil => simp [validateRequiredFieldsAux, hf]
  | cons f0 rest ih =>
    have h0 := hpre f0 (List.mem_cons_self f0 rest)
    have ihr := ih (fun f' h' => hpre f' (List.mem_cons_of_mem f0 h'))
    simp [validateRequiredFieldsAux, h0, ihr]

/-- A schema with a `required` entry is not the empty map. -/
theorem JSONSchema.isEmpty_false_of_required (schema : JSONSchema) (req : List String)
    (hreq : schema.required = some req) : schema.isEmpty = false := by
  simp [JSONSchema.isEmpty, hreq]

/-- `ValidateJSON` rejects a parsed payload that omits a schema-required field,
with the exact message the Go validator produces for the first missing one. -/
theorem ValidateJSON_missingRequired (schema : JSONSchema) (data : JsonObj)
    (req1 req2 : List String) (f : String)
    (hreq : schema.required = some (req1 ++ f :: req2))
    (hpre : ∀ f0 ∈ req1, (data.lookup f0).isSome = true)
    (hf : (data.lookup f).isSome = false) :
    ValidateJSON (.ok data) schema = .error ("missing required field: " ++ f) := by
  have hempty := JSONSchema.isEmpty_false_of_required schema _ hreq
  have hfields := validateRequiredFieldsAux_missing data req1 req2 f hpre hf
  simp [ValidateJSON, hempty, validateJSONData, validateRequiredFields, hreq, hfields]

/-- A firing transfer whose declared non-empty schema rejects the payload
aborts the scan with `InvalidHandoffInput`. -/
theorem scanHandoffList_invalid (message : Message) (tc : ToolCall)
    (hs1 : List Handoff) (h : Handoff) (hs2 : List Handoff) (em : String)
    (hpre : ∀ hd ∈ hs1, hd.toolName = tc.function.name →
      hd.shouldHandoff tc.function.arguments = .ok false)
    (hmatch : h.toolName = tc.function.name)
    (hyes : h.shouldHandoff tc.function.arguments = .ok true)
    (hschema : h.inputJSONSchema.isEmpty = false)
    (hval : ValidateJSON tc.function.argumentsJson h.inputJSONSchema = .error em) :
    scanHandoffList message tc (hs1 ++ h :: hs2) =
      .error (GoError.baseWith .invalidHandoffInput em) := by
  induction hs1 with
  | nil => simp [scanHandoffList, hmatch, hyes, hschema, hval]
  | cons hd rest ih =>
    have ihr := ih (fun hd' h1 h2 => hpre hd' (List.mem_cons_of_mem hd h1) h2)
    by_cases hname : hd.toolName = tc.function.name
    · have hdec := hpre hd (List.mem_cons_self hd rest) hname
      simp [scanHandoffList, hname, hdec, ihr]
    · simp [scanHandoffList, hname, ihr]

/-- A scan error on one request aborts the outer scan. -/
theorem scanToolCallsForHandoff_error (a : Agent) (message : Message)
    (pre post : List ToolCall) (tc : ToolCall) (e : GoError)
    (hpre : ∀ tc0 ∈ pre, scanHandoffList message tc0 a.handoffs = .ok none)
    (htc : scanHandoffList message tc a.handoffs = .error e) :
    scanToolCallsForHandoff a message (pre ++ tc :: post) = .error e := by
  induction pre with
  | nil => simp [scanToolCallsForHandoff, htc]
  | cons tc0 rest ih =>
    have h0 := hpre tc0 (List.mem_cons_self tc0 rest)
    have ihr := ih (fun tc' h' => hpre tc' (List.mem_cons_of_mem tc0 h'))
    simp [scanToolCallsForHandoff, h0, ihr]

/-- A step whose response's invocation requests abort in
`processToolCallsAndHandoffs` propagates the error after the model call. -/
theorem processAgentStep_toolCallsError (state : ExecState) (a : Agent) (P : Provider)
    (resp : ChatResponse) (evs0 : List Event) (e : GoError)
    (hca : state.currentAgent = a)
    (hprov : state.config.modelProvider = some P)
    (hresp : P state.stepCounter state.messages (settingsFor a state.config) = .ok resp)
    (hne : resp.message.toolCalls.isEmpty = false)
    (herr : processToolCallsAndHandoffs a resp.message = (evs0, .error e)) :
    processAgentStep state =
      (.modelCall state.stepCounter state.messages :: evs0, .error e) := by
  simp [processAgentStep, hca, hprov, hresp, hne, herr]

/-- C9: transfer-payload validation. First, the validator: a parsed payload
that omits a schema-required field is rejected with a "missing required field"
message naming the first missing field. Second, the engine: when the model
requests a transfer whose non-empty declared schema requires a field the
payload omits, the run fails with `InvalidHandoffInput`, the full message being
the step-wrapped "invalid handoff input: missing required field: <f>". Third,
a transfer with an empty (or absent) declared schema is never rejected for its
payload: the transfer is taken whatever the argument payload parses to. -/
theorem invalidHandoffInput_schemaValidation :
    (∀ (schema : JSONSchema) (data : JsonObj) (req1 req2 : List String) (f : String),
      schema.required = some (req1 ++ f :: req2) →
      (∀ f0 ∈ req1, (data.lookup f0).isSome = true) →
      (data.lookup f).isSome = false →
      ValidateJSON (.ok data) schema = .error ("missing required field: " ++ f)) ∧
    (∀ (a : Agent) (P : Provider) (input : String) (cfg : RunConfig)
       (hs1 hs2 : List Handoff) (h : Handoff) (tc : ToolCall)
       (data : JsonObj) (req1 req2 : List String) (f : String),
      cfg.modelProvider = some P → 0 < cfg.maxTurns →
      ¬a.core.instructions = "" → a.core.inputGuardrails = [] →
      a.core.hooks.onStart a.core.name = .ok () →
      (∃ s, a.getSystemPrompt = .ok s) →
      a.handoffs = hs1 ++ h :: hs2 →
      (∀ hd ∈ hs1, hd.toolName = tc.function.name →
        hd.shouldHandoff tc.function.arguments = .ok false) →
      h.toolName = tc.function.name →
      h.shouldHandoff tc.function.arguments = .ok true →
      h.inputJSONSchema.required = some (req1 ++ f :: req2) →
      tc.function.argumentsJson = .ok data →
      (∀ f0 ∈ req1, (data.lookup f0).isSome = true) →
      (data.lookup f).isSome = false →
      (∀ msgs settings, ∃ u, P 0 msgs settings = .ok ⟨⟨"assistant", "", [tc], "", ""⟩, u⟩) →
      (RunWithConfig a input cfg).2 =
        .error (GoError.wrap "agent execution error" (GoError.wrap "step 1 error"
          (GoError.baseWith .invalidHandoffInput ("missing required field: " ++ f))))) ∧
    (∀ (a : Agent) (message : Message) (pre post : List ToolCall) (tc : ToolCall)
       (hs1 hs2 : List Handoff) (h : Handoff),
      message.toolCalls = pre ++ tc :: post →
      (∀ tc0 ∈ pre, ∀ hd ∈ a.handoffs, hd.toolName = tc0.function.name →
        hd.shouldHandoff tc0.function.arguments = .ok false) →
      a.handoffs = hs1 ++ h :: hs2 →
      (∀ hd ∈ hs1, hd.toolName = tc.function.name →
        hd.shouldHandoff tc.function.arguments = .ok false) →
      h.toolName = tc.function.name →
      h.shouldHandoff tc.function.arguments = .ok true →
      h.inputJSONSchema.isEmpty = true →
      processToolCallsAndHandoffs a message =
        ([], .ok ⟨"", none, some h.target, [message], ⟨0, 0, 0⟩, tc.function.arguments⟩)) := by
  refine ⟨ValidateJSON_missingRequired, ?_, ?_⟩
  · intro a P input cfg hs1 hs2 h tc data req1 req2 f
      hprov hNpos hinstr hgr hstart hins hhs hpreh hmatch hyes hreq hdata hpre hf hP
    have hval : ValidateJSON tc.function.argumentsJson h.inputJSONSchema =
        .error ("missing required field: " ++ f) := by
      rw [hdata]
      exact ValidateJSON_missingRequired h.inputJSONSchema data req1 req2 f hreq hpre hf
    have hschemaNE := JSONSchema.isEmpty_false_of_required h.inputJSONSchema _ hreq
    have hscanH : scanHandoffList (⟨"assistant", "", [tc], "", ""⟩ : Message) tc a.handoffs =
        .error (GoError.baseWith .invalidHandoffInput ("missing required field: " ++ f)) := by
      rw [hhs]
      exact scanHandoffList_invalid _ tc hs1 h hs2 _ hpreh hmatch hyes hschemaNE hval
    have hptc : processToolCallsAndHandoffs a (⟨"assistant", "", [tc], "", ""⟩ : Message) =
        ([], .error (GoError.baseWith .invalidHandoffInput ("missing required field: " ++ f))) := by
      have hscan := scanToolCallsForHandoff_error a
        (⟨"assistant", "", [tc], "", ""⟩ : Message) [] [] tc _
        (fun tc0 h0 => absurd h0 (List.not_mem_nil tc0)) hscanH
      simp only [List.nil_append] at hscan
      simp [processToolCallsAndHandoffs, hscan]
    obtain ⟨ins, hins'⟩ := hins
    have hprovF : cfg.modelProvider.isNone = false := by rw [hprov]; rfl
    have hmtpos : ¬cfg.maxTurns ≤ 0 := by omega
    have hveq := RunWithConfig_eq_afterValidation a input cfg hinstr hprovF
    rw [if_neg hmtpos] at hveq
    obtain ⟨u, hresp⟩ :=
      hP (refreshSystemMessage ins (initialState1 a input cfg).messages)
        (settingsFor a (initialState1 a input cfg).config)
    have hgs : (initialState1 a input cfg).currentAgent.getSystemPrompt = .ok ins := by
      rw [initialState1_currentAgent]; exact hins'
    have h1 : runSingleTurn (initialState1 a input cfg) =
        processAgentStep { initialState1 a input cfg with
          messages := refreshSystemMessage ins (initialState1 a input cfg).messages } := by
      unfold runSingleTurn
      rw [hgs]
    have h2 := processAgentStep_toolCallsError
      ({ initialState1 a input cfg with
          messages := refreshSystemMessage ins (initialState1 a input cfg).messages })
      a P ⟨⟨"assistant", "", [tc], "", ""⟩, u⟩ [] _
      (initialState1_currentAgent a input cfg)
      (by dsimp only; rw [initialState1_config]; exact hprov)
      (by
        dsimp only
        rw [initialState1_stepCounter]
        exact hresp)
      rfl hptc
    dsimp only at h2
    have hfuel : ((initialState1 a input cfg).config.maxTurns -
        ((initialState1 a input cfg).stepCounter : Int)).toNat =
        (((initialState1 a input cfg).config.maxTurns -
          ((initialState1 a input cfg).stepCounter : Int)).toNat - 1) + 1 := by
      rw [initialState1_config, initialState1_stepCounter]
      omega
    have hloop : runAgentExecutionLoop (initialState1 a input cfg) =
        ([.modelCall (initialState1 a input cfg).stepCounter
            (refreshSystemMessage ins (initialState1 a input cfg).messages)],
         .error (GoError.wrap
           ("step " ++ toString ((initialState1 a input cfg).stepCounter + 1) ++ " error")
           (GoError.baseWith .invalidHandoffInput ("missing required field: " ++ f)))) := by
      simp only [runAgentExecutionLoop]
      rw [hfuel]
      simp only [runLoopAux]
      rw [h1, h2]
    rw [hveq, runAfterValidation_noGuardrails a input cfg hgr hstart, hloop]
    have hstep : ("step " ++ toString (1 : Nat) ++ " error") = "step 1 error" := rfl
    simp [GoError.baseWith, GoError.wrap, ErrBase.text, initialState1_stepCounter, hstep]
  · intro a message pre post tc hs1 hs2 h htcs hpre hhs hpreh hmatch hyes hschema
    have hscan0 : ∀ tc0 ∈ pre, scanHandoffList message tc0 a.handoffs = .ok none :=
      fun tc0 h0 => scanHandoffList_none message tc0 a.handoffs (hpre tc0 h0)
    have hfire : scanHandoffList message tc a.handoffs =
        .ok (some ⟨"", none, some h.target, [message], ⟨0, 0, 0⟩, tc.function.arguments⟩) := by
      rw [hhs]
      exact scanHandoffList_fires message tc hs1 h hs2 hpreh hmatch hyes hschema
    have hscan := scanToolCallsForHandoff_fires a message pre post tc _ hscan0 hfire
    have hne : message.toolCalls.isEmpty = false := by
      rw [htcs]; cases pre <;> rfl
    rw [processToolCallsAndHandoffs, hne]
    simp only [Bool.false_eq_true, if_false]
    rw [htcs, hscan]

/-- The declared schema of the C9 witness: the field `reason` is required. -/
def wC9Schema : JSONSchema := ⟨some ["reason"], none, 0⟩

/-- The transfer of the C9 witness, declaring the schema above. -/
def wC9Handoff : Handoff :=
  ⟨"transfer_to_b", "to b", wC9Schema, fun _ => .ok true, fun _ => .ok (), wC4AgentB⟩

/-- Source agent of the C9 witness. -/
def wC9Agent : Agent :=
  Agent.mk ⟨"a", "sys", none, none, "", [], [], [], none, baseAgentHooks⟩ [wC9Handoff]

/-- The malformed transfer request of the C9 witness: the payload
`{"priority":1}` omits the required `reason`. -/
def wC9tc : ToolCall :=
  ⟨"c1", "function", ⟨"transfer_to_b", "\x7b\"priority\":1\x7d", .ok [("priority", .num 1)]⟩⟩

/-- The provider of the C9 witness: it always requests the malformed
transfer. -/
def wC9Provider : Provider := fun _ _ _ =>
  .ok ⟨⟨"assistant", "", [wC9tc], "", ""⟩, ⟨100, 50, 150⟩⟩

/-- A transfer request whose payload is not even valid JSON, aimed at a
transfer with an empty declared schema. -/
def wC9BadTc : ToolCall :=
  ⟨"c1", "function", ⟨"transfer_to_b", "not json", .error "parse error"⟩⟩

/-- The response carrying the unparsable payload. -/
def wC9MsgBad : Message := ⟨"assistant", "", [wC9BadTc], "", ""⟩

/-- Witness for C9, the spec's scenario: schema requiring `reason`, payload
`{"priority":1}` → the validator reports the missing field, the run fails with
`InvalidHandoffInput` and its full message contains "missing required field";
and a transfer with an empty schema is taken even for an unparsable payload. -/
theorem invalidHandoffInput_schemaValidation_witness :
    ValidateJSON (.ok [("priority", .num 1)]) wC9Schema =
      .error ("missing required field: " ++ "reason") ∧
    (RunWithConfig wC9Agent "go" (wCfg wC9Provider 10)).2 =
      .error (GoError.wrap "agent execution error" (GoError.wrap "step 1 error"
        (GoError.baseWith .invalidHandoffInput ("missing required field: " ++ "reason")))) ∧
    (GoError.wrap "agent execution error" (GoError.wrap "step 1 error"
        (GoError.baseWith .invalidHandoffInput ("missing required field: " ++ "reason")))).msg =
      "agent execution error: step 1 error: invalid handoff input: missing required field: reason" ∧
    processToolCallsAndHandoffs wC4AgentA wC9MsgBad =
      ([], .ok ⟨"", none, some wC4AgentB, [wC9MsgBad], ⟨0, 0, 0⟩, "not json"⟩) :=
  ⟨invalidHandoffInput_schemaValidation.1 wC9Schema [("priority", .num 1)] [] [] "reason"
      rfl (by intro f0 h0; simp at h0) rfl,
   invalidHandoffInput_schemaValidation.2.1 wC9Agent wC9Provider "go" (wCfg wC9Provider 10)
      [] [] wC9Handoff wC9tc [("priority", .num 1)] [] [] "reason"
      rfl (by simp [wCfg]) (by decide) rfl rfl ⟨"sys", rfl⟩ rfl
      (by intro hd h0; simp at h0)
      rfl rfl rfl rfl
      (by intro f0 h0; simp at h0)
      rfl
      (fun msgs settings => ⟨⟨100, 50, 150⟩, rfl⟩),
   rfl,
   invalidHandoffInput_schemaValidation.2.2 wC4AgentA wC9MsgBad [] [] wC9BadTc
      [] [] wC4Handoff rfl
      (by intro tc0 h0; simp at h0)
      rfl
      (by intro hd h0; simp at h0)
      rfl rfl rfl⟩

/-!
### C10: tool-not-found is recovered, tool failure aborts
-/

/-- A failing tool invocation aborts the execution loop over the requests: the
requests before it (naming missing tools) are answered without invoking
anything, the failing tool is invoked exactly once, and the requests after it
are never reached. -/
theorem executeToolCalls_abort (a : Agent) (pre post : List ToolCall) (tc : ToolCall)
    (T : Tool) (em : String)
    (hpre : ∀ tc0 ∈ pre, a.core.tools.find? (fun t => t.name == tc0.function.name) = none)
    (hT : a.core.tools.find? (fun t => t.name == tc.function.name) = some T)
    (hhk : a.core.hooks.onToolStart a.core.name T.name = .ok ())
    (hinv : T.invoke tc.function.arguments = .error em) :
    executeToolCalls a (pre ++ tc :: post) =
      ([.toolInvoke T.name tc.function.arguments],
       .error (GoError.wrap "tool execution error"
         (GoError.wrap "tool execution error" (GoError.plain em)))) := by
  induction pre with
  | nil =>
    have hexe : executeToolWithTracing a T tc.function.arguments =
        ([.toolInvoke T.name tc.function.arguments],
         .error (GoError.wrap "tool execution error" (GoError.plain em))) := by
      simp [executeToolWithTracing, hhk, hinv]
    simp [executeToolCalls, hT, hexe]
  | cons tc0 rest ih =>
    have h0 := hpre tc0 (List.mem_cons_self tc0 rest)
    have ihr := ih (fun tc' h' => hpre tc' (List.mem_cons_of_mem tc0 h'))
    simp [executeToolCalls, h0, ihr, Except.map]

/-- The agent of the C10 run-level scenario: no tools registered. -/
def wC10Agent : Agent := AgentNew "a" "sys"

/-- The provider of the C10 scenario: a request for the unregistered tool
`nope` on the first turn, then plain text `"done"`. -/
def wC10Provider : Provider := fun n _ _ =>
  if n = 0 then
    .ok ⟨⟨"assistant", "", [⟨"c1", "function", ⟨"nope", "{}", .ok []⟩⟩], "", ""⟩,
      ⟨100, 50, 150⟩⟩
  else
    .ok ⟨⟨"assistant", "done", [], "", ""⟩, ⟨100, 50, 150⟩⟩

/-- C10, first part: a response whose invocation requests name no registered
tool never aborts the run — each request is answered by one tool-role message
carrying the explanatory error string and correlated by the invocation id
(`toolNotFoundMessage`), nothing is invoked, and the step continues the loop.
Second part: a registered tool whose invocation fails aborts the whole step
with the propagated, twice-wrapped tool execution error; the trace shows the
failing invocation only — no remaining request of the same response is
processed. Third part (the spec's tool-round scenario, run level): a
tool-not-found round on turn one followed by plain text `"done"` yields
FinalOutput `"done"` with a four-message history whose third entry is the
tool-role error message correlated by the invocation id — the run continued
after the unmatched name. -/
theorem toolDispatch_errorHandling :
    (∀ (a : Agent) (resp : ChatResponse), ToolRoundResponse a resp →
      processToolCallsAndHandoffs a resp.message =
        ([], .ok ⟨"", none, none,
          resp.message :: resp.message.toolCalls.map toolNotFoundMessage, ⟨0, 0, 0⟩, ""⟩)) ∧
    (∀ (a : Agent) (message : Message) (pre post : List ToolCall) (tc : ToolCall)
       (T : Tool) (em : String),
      a.handoffs = [] →
      message.toolCalls = pre ++ tc :: post →
      (∀ tc0 ∈ pre, a.core.tools.find? (fun t => t.name == tc0.function.name) = none) →
      a.core.tools.find? (fun t => t.name == tc.function.name) = some T →
      a.core.hooks.onToolStart a.core.name T.name = .ok () →
      T.invoke tc.function.arguments = .error em →
      processToolCallsAndHandoffs a message =
        ([.toolInvoke T.name tc.function.arguments],
         .error (GoError.wrap "tool execution error"
           (GoError.wrap "tool execution error" (GoError.plain em))))) ∧
    ((RunWithConfig wC10Agent "test" (wCfg wC10Provider 10)).2.toOption.map
        (fun res => (res.finalOutput,
          res.history.map (fun msg => (msg.role, msg.content, msg.toolCallID))))) =
      some ("done",
        [("user", "test", ""), ("assistant", "", ""),
         ("tool", "Error: Tool " ++ sq ++ "nope" ++ sq ++ " not found", "c1"),
         ("assistant", "done", "")]) := by
  refine ⟨processToolCallsAndHandoffs_toolRound, ?_, by decide⟩
  intro a message pre post tc T em hhs htcs hpre hT hhk hinv
  have hne : message.toolCalls.isEmpty = false := by
    rw [htcs]; cases pre <;> rfl
  have hscan : scanToolCallsForHandoff a message message.toolCalls = .ok none := by
    refine scanToolCallsForHandoff_none a message message.toolCalls ?_
    intro tc' _ hd hmem
    rw [hhs] at hmem
    exact absurd hmem (List.not_mem_nil hd)
  have habort := executeToolCalls_abort a pre post tc T em hpre hT hhk hinv
  rw [processToolCallsAndHandoffs, hne]
  simp only [Bool.false_eq_true, if_false]
  rw [hscan]
  simp only []
  rw [htcs, habort]

/-- The failing tool of the C10 witness. -/
def wC10Tool : Tool := ⟨"boom", "always fails", emptySchema, fun _ => .error "kaboom"⟩

/-- An agent owning the failing tool. -/
def wC10AgentB : Agent :=
  Agent.mk ⟨"a", "sys", none, none, "", [wC10Tool], [], [], none, baseAgentHooks⟩ []

/-- A response requesting the failing tool and then another tool. -/
def wC10MsgB : Message :=
  ⟨"assistant", "", [⟨"c1", "function", ⟨"boom", "{}", .ok []⟩⟩,
                     ⟨"c2", "function", ⟨"other", "{}", .ok []⟩⟩], "", ""⟩

/-- The tool-round response of the C10 witness. -/
def wC10Resp : ChatResponse :=
  ⟨⟨"assistant", "", [⟨"c1", "function", ⟨"nope", "{}", .ok []⟩⟩], "", ""⟩, ⟨100, 50, 150⟩⟩

/-- Witness for C10: the unmatched name is answered locally with the
explanatory tool message and the run continues, while the failing registered
tool aborts the step with the propagated error and the second request is never
processed. -/
theorem toolDispatch_errorHandling_witness :
    processToolCallsAndHandoffs wC10Agent wC10Resp.message =
      ([], .ok ⟨"", none, none,
        wC10Resp.message :: wC10Resp.message.toolCalls.map toolNotFoundMessage,
        ⟨0, 0, 0⟩, ""⟩) ∧
    processToolCallsAndHandoffs wC10AgentB wC10MsgB =
      ([.toolInvoke "boom" "{}"],
       .error (GoError.wrap "tool execution error"
         (GoError.wrap "tool execution error" (GoError.plain "kaboom")))) :=
  ⟨toolDispatch_errorHandling.1 wC10Agent wC10Resp
    ⟨List.cons_ne_nil _ _,
     by intro tc _ hd hmem; simp [wC10Agent, AgentNew, Agent.handoffs] at hmem,
     by intro tc _; rfl⟩,
   toolDispatch_errorHandling.2.1 wC10AgentB wC10MsgB
    [] [⟨"c2", "function", ⟨"other", "{}", .ok []⟩⟩]
    ⟨"c1", "function", ⟨"boom", "{}", .ok []⟩⟩ wC10Tool "kaboom"
    rfl rfl (by intro tc0 h0; simp at h0) rfl rfl rfl⟩

/-!
### C7: the structured-output round trip
-/

/-- A no-invocation step under a declared strict output shape whose parse
succeeds: the parsed value becomes the structured output, the plain content
the final output (no output guardrails declared). -/
theorem processAgentStep_structuredOk (state : ExecState) (a : Agent) (P : Provider)
    (resp : ChatResponse) (parse : String → Except String JsonVal) (v : JsonVal)
    (hca : state.currentAgent = a)
    (hprov : state.config.modelProvider = some P)
    (hresp : P state.stepCounter state.messages (settingsFor a state.config) = .ok resp)
    (hnt : resp.message.toolCalls = [])
    (hout : a.core.outputType = some parse)
    (hparse : parse resp.message.content = .ok v)
    (hog : a.core.outputGuardrails = []) :
    processAgentStep state =
      ([.modelCall state.stepCounter state.messages],
       .ok (⟨resp.message.content, some v, none, [resp.message], convertUsage resp.usage, ""⟩,
            { state with usage := accumulateUsage state.usage (convertUsage resp.usage) })) := by
  simp [processAgentStep, hca, hprov, hresp, hnt, processFinalOutput, hout, hparse, hog]

/-- A no-invocation step whose content does not parse into the declared strict
shape aborts with `InvalidOutputFormat`. -/
theorem processAgentStep_structuredErr (state : ExecState) (a : Agent) (P : Provider)
    (resp : ChatResponse) (parse : String → Except String JsonVal) (em : String)
    (hca : state.currentAgent = a)
    (hprov : state.config.modelProvider = some P)
    (hresp : P state.stepCounter state.messages (settingsFor a state.config) = .ok resp)
    (hnt : resp.message.toolCalls = [])
    (hout : a.core.outputType = some parse)
    (hparse : parse resp.message.content = .error em) :
    processAgentStep state =
      ([.modelCall state.stepCounter state.messages],
       .error (GoError.baseWith .invalidOutputFormat em)) := by
  simp [processAgentStep, hca, hprov, hresp, hnt, processFinalOutput, hout, hparse]

/-- C7: for an agent declaring a strict output shape (no output guardrails),
when the first response carries no invocation requests and content `c`: if `c`
parses into the declared shape as `v`, the run succeeds and the Result's
StructuredOutput equals `v` exactly, with FinalOutput `c`; if `c` does not
parse, the run fails with `InvalidOutputFormat` (wrapped in the step and run
error messages). -/
theorem structuredOutput_roundTrip (a : Agent) (P : Provider) (input c : String)
    (cfg : RunConfig) (parse : String → Except String JsonVal)
    (hprov : cfg.modelProvider = some P)
    (hNpos : 0 < cfg.maxTurns)
    (hinstr : ¬a.core.instructions = "")
    (hgr : a.core.inputGuardrails = [])
    (hstart : a.core.hooks.onStart a.core.name = .ok ())
    (hins : ∃ s, a.getSystemPrompt = .ok s)
    (hout : a.core.outputType = some parse)
    (hog : a.core.outputGuardrails = [])
    (hP : ∀ msgs settings, ∃ resp, P 0 msgs settings = .ok resp ∧
      resp.message.toolCalls = [] ∧ resp.message.content = c) :
    (∀ v, parse c = .ok v → ¬c = "" → a.core.hooks.onEnd a.core.name c = .ok () →
      ∃ evs res, RunWithConfig a input cfg = (evs, .ok res) ∧
        res.structuredOutput = some v ∧ res.finalOutput = c) ∧
    (∀ em, parse c = .error em →
      (RunWithConfig a input cfg).2 =
        .error (GoError.wrap "agent execution error" (GoError.wrap "step 1 error"
          (GoError.baseWith .invalidOutputFormat em)))) := by
  obtain ⟨ins, hins'⟩ := hins
  have hprovF : cfg.modelProvider.isNone = false := by rw [hprov]; rfl
  have hmtpos : ¬cfg.maxTurns ≤ 0 := by omega
  have hveq := RunWithConfig_eq_afterValidation a input cfg hinstr hprovF
  rw [if_neg hmtpos] at hveq
  obtain ⟨resp, hresp, hnt, hcont⟩ :=
    hP (refreshSystemMessage ins (initialState1 a input cfg).messages)
      (settingsFor a (initialState1 a input cfg).config)
  have hgs : (initialState1 a input cfg).currentAgent.getSystemPrompt = .ok ins := by
    rw [initialState1_currentAgent]; exact hins'
  have h1 : runSingleTurn (initialState1 a input cfg) =
      processAgentStep { initialState1 a input cfg with
        messages := refreshSystemMessage ins (initialState1 a input cfg).messages } := by
    unfold runSingleTurn
    rw [hgs]
  have hfuel : ((initialState1 a input cfg).config.maxTurns -
      ((initialState1 a input cfg).stepCounter : Int)).toNat =
      (((initialState1 a input cfg).config.maxTurns -
        ((initialState1 a input cfg).stepCounter : Int)).toNat - 1) + 1 := by
    rw [initialState1_config, initialState1_stepCounter]
    omega
  constructor
  · intro v hparse hcne hend
    have h2 := processAgentStep_structuredOk
      ({ initialState1 a input cfg with
          messages := refreshSystemMessage ins (initialState1 a input cfg).messages })
      a P resp parse v
      (initialState1_currentAgent a input cfg)
      (by dsimp only; rw [initialState1_config]; exact hprov)
      (by dsimp only; rw [initialState1_stepCounter]; exact hresp)
      hnt hout (by rw [hcont]; exact hparse) hog
    dsimp only at h2
    have hcne' : ¬resp.message.content = "" := by rw [hcont]; exact hcne
    have h3 := processStepResult_final
      ({ initialState1 a input cfg with
          messages := refreshSystemMessage ins (initialState1 a input cfg).messages,
          usage := accumulateUsage (initialState1 a input cfg).usage (convertUsage resp.usage) })
      ⟨resp.message.content, some v, none, [resp.message], convertUsage resp.usage, ""⟩
      rfl hcne'
    dsimp only at h3
    have hloop : runLoopAux (((initialState1 a input cfg).config.maxTurns -
        ((initialState1 a input cfg).stepCounter : Int)).toNat) (initialState1 a input cfg) =
        ([.modelCall (initialState1 a input cfg).stepCounter
            (refreshSystemMessage ins (initialState1 a input cfg).messages)],
         .ok ({ initialState1 a input cfg with
            messages := refreshSystemMessage ins (initialState1 a input cfg).messages ++
              [resp.message],
            resultMessages := (initialState1 a input cfg).resultMessages ++ [resp.message],
            usage := accumulateUsage (initialState1 a input cfg).usage (convertUsage resp.usage),
            finalOutput := resp.message.content,
            structuredOutput := some v })) := by
      rw [hfuel]
      simp only [runLoopAux]
      rw [h1, h2]
      dsimp only
      rw [h3]
      dsimp only
      rw [if_pos hcne']
      simp
    have hrunLoop : runAgentExecutionLoop (initialState1 a input cfg) =
        ([.modelCall (initialState1 a input cfg).stepCounter
            (refreshSystemMessage ins (initialState1 a input cfg).messages)],
         .ok ⟨resp.message.content, some v, (initialState1 a input cfg).currentAgent,
           convertModelMessages ((initialState1 a input cfg).resultMessages ++ [resp.message]),
           accumulateUsage (initialState1 a input cfg).usage (convertUsage resp.usage)⟩) := by
      simp only [runAgentExecutionLoop]
      rw [hloop]
      dsimp only
      rw [if_neg hcne', initialState1_currentAgent, hcont, hend]
    refine ⟨[.modelCall (initialState1 a input cfg).stepCounter
      (refreshSystemMessage ins (initialState1 a input cfg).messages)],
      ⟨resp.message.content, some v, (initialState1 a input cfg).currentAgent,
      convertModelMessages ((initialState1 a input cfg).resultMessages ++ [resp.message]),
      accumulateUsage (initialState1 a input cfg).usage (convertUsage resp.usage)⟩,
      ?_, rfl, hcont⟩
    rw [hveq, runAfterValidation_noGuardrails a input cfg hgr hstart, hrunLoop]
  · intro em hparse
    have h2 := processAgentStep_structuredErr
      ({ initialState1 a input cfg with
          messages := refreshSystemMessage ins (initialState1 a input cfg).messages })
      a P resp parse em
      (initialState1_currentAgent a input cfg)
      (by dsimp only; rw [initialState1_config]; exact hprov)
      (by dsimp only; rw [initialState1_stepCounter]; exact hresp)
      hnt hout (by rw [hcont]; exact hparse)
    dsimp only at h2
    have hloop : runAgentExecutionLoop (initialState1 a input cfg) =
        ([.modelCall (initialState1 a input cfg).stepCounter
            (refreshSystemMessage ins (initialState1 a input cfg).messages)],
         .error (GoError.wrap
           ("step " ++ toString ((initialState1 a input cfg).stepCounter + 1) ++ " error")
           (GoError.baseWith .invalidOutputFormat em))) := by
      simp only [runAgentExecutionLoop]
      rw [hfuel]
      simp only [runLoopAux]
      rw [h1, h2]
    rw [hveq, runAfterValidation_noGuardrails a input cfg hgr hstart, hloop]
    have hstep : ("step " ++ toString (1 : Nat) ++ " error") = "step 1 error" := rfl
    simp [GoError.baseWith, GoError.wrap, ErrBase.text, initialState1_stepCounter, hstep]

/-- The strict-shape parser of the C7 witness: it accepts exactly the JSON
text `{"n":1}` (as the object with field `n` equal to 1) and reports a parse
failure on everything else, mirroring `json.Unmarshal` into a one-field
struct. -/
def wC7Parse : String → Except String JsonVal := fun s =>
  if s = "\x7b\"n\":1\x7d" then .ok (.obj [("n", .num 1)])
  else .error "invalid character"

/-- The agent of the C7 witness: strict output shape declared. -/
def wC7Agent : Agent :=
  Agent.mk ⟨"a", "sys", none, none, "", [], [], [], some wC7Parse, baseAgentHooks⟩ []

/-- Provider replying with the valid JSON text. -/
def wC7ProviderOk : Provider := fun _ _ _ =>
  .ok ⟨⟨"assistant", "\x7b\"n\":1\x7d", [], "", ""⟩, ⟨100, 50, 150⟩⟩

/-- Provider replying with text that does not match the shape. -/
def wC7ProviderBad : Provider := fun _ _ _ =>
  .ok ⟨⟨"assistant", "oops", [], "", ""⟩, ⟨100, 50, 150⟩⟩

/-- Witness for C7: the valid JSON final content round-trips into
StructuredOutput while FinalOutput keeps the raw text; the invalid content
fails the run with `InvalidOutputFormat`. -/
theorem structuredOutput_roundTrip_witness :
    (∃ evs res, RunWithConfig wC7Agent "go" (wCfg wC7ProviderOk 10) = (evs, .ok res) ∧
      res.structuredOutput = some (.obj [("n", .num 1)]) ∧
      res.finalOutput = "\x7b\"n\":1\x7d") ∧
    (RunWithConfig wC7Agent "go" (wCfg wC7ProviderBad 10)).2 =
      .error (GoError.wrap "agent execution error" (GoError.wrap "step 1 error"
        (GoError.baseWith .invalidOutputFormat "invalid character"))) :=
  ⟨(structuredOutput_roundTrip wC7Agent wC7ProviderOk "go" "\x7b\"n\":1\x7d"
      (wCfg wC7ProviderOk 10) wC7Parse
      rfl (by simp [wCfg]) (by decide) rfl rfl ⟨"sys", rfl⟩ rfl rfl
      (fun msgs settings =>
        ⟨⟨⟨"assistant", "\x7b\"n\":1\x7d", [], "", ""⟩, ⟨100, 50, 150⟩⟩, rfl, rfl, rfl⟩)).1
    (.obj [("n", .num 1)]) rfl (by decide) rfl,
   (structuredOutput_roundTrip wC7Agent wC7ProviderBad "go" "oops"
      (wCfg wC7ProviderBad 10) wC7Parse
      rfl (by simp [wCfg]) (by decide) rfl rfl ⟨"sys", rfl⟩ rfl rfl
      (fun msgs settings =>
        ⟨⟨⟨"assistant", "oops", [], "", ""⟩, ⟨100, 50, 150⟩⟩, rfl, rfl, rfl⟩)).2
    "invalid character" rfl⟩

/-!
### C8: the output-guardrail pipeline
-/

/-- The text a guardrail step hands to the rest of the pipeline: the rewrite
when it is non-empty, the incoming text otherwise. -/
def stepText (t : String) (r : OutputGuardrailResult) : String :=
  if r.modifiedOutput = "" then t else r.modifiedOutput

/-- Every guardrail in the list, fed the text as threaded by the pipeline,
returns a successful, allowing result. -/
def allowAll : String → List OutputGuardrail → Bool
  | _, [] => true
  | t, g :: rest =>
    match g.check t with
    | .error _ => false
    | .ok r => r.allowed && allowAll (stepText t r) rest

/-- The text produced by threading the pipeline: each allowed check with a
non-empty `ModifiedOutput` replaces the text handed to the rest of the list.
(On a check error or disallow the remaining text is irrelevant to the lemmas
that use this function.) -/
def guardrailThread : String → List OutputGuardrail → String
  | t, [] => t
  | t, g :: rest =>
    match g.check t with
    | .error _ => t
    | .ok r =>
      if r.allowed then guardrailThread (stepText t r) rest
      else t

/-- The checks the pipeline performs, each recorded with the text it was fed. -/
def guardrailEvents : String → List OutputGuardrail → List Event
  | _, [] => []
  | t, g :: rest =>
    match g.check t with
    | .error _ => [.outputGuardrailCheck g.name t]
    | .ok r =>
      if r.allowed then
        .outputGuardrailCheck g.name t :: guardrailEvents (stepText t r) rest
      else [.outputGuardrailCheck g.name t]

/-- The source's rewrite condition, restated through `stepText`. -/
theorem ite_stepText (t : String) (r : OutputGuardrailResult) :
    (if r.modifiedOutput ≠ "" then r.modifiedOutput else t) = stepText t r := by
  simp [stepText, ite_not]

/-- An all-allowing pipeline returns the threaded text, recording one check
per guardrail. -/
theorem applyOutputGuardrailsAux_allow (t : String) (gs : List OutputGuardrail)
    (hall : allowAll t gs = true) :
    applyOutputGuardrailsAux t gs = (guardrailEvents t gs, .ok (guardrailThread t gs)) := by
  induction gs generalizing t with
  | nil => rfl
  | cons g rest ih =>
    cases hch : g.check t with
    | error e => simp [allowAll, hch] at hall
    | ok r =>
      rw [allowAll, hch] at hall
      simp only [Bool.and_eq_true] at hall
      have ihr := ih (stepText t r) hall.2
      have hs : (if r.modifiedOutput = "" then t else r.modifiedOutput) = stepText t r := rfl
      simp [applyOutputGuardrailsAux, guardrailEvents, guardrailThread, hch,
        hall.1, ite_stepText]
      rw [hs, ihr]
      exact ⟨rfl, rfl⟩

/-- The `k`-th check performed by an all-allowing pipeline is the `k`-th
guardrail of the list, and the text it receives is the pipeline's rewrite of
the original text through the first `k` guardrails. -/
theorem guardrailEvents_get (t : String) (gs : List OutputGuardrail)
    (hall : allowAll t gs = true) (k : Nat) (g : OutputGuardrail) (hk : gs[k]? = some g) :
    (guardrailEvents t gs)[k]? =
      some (Event.outputGuardrailCheck g.name (guardrailThread t (gs.take k))) := by
  induction gs generalizing t k with
  | nil => simp at hk
  | cons g0 rest ih =>
    cases hch : g0.check t with
    | error e => simp [allowAll, hch] at hall
    | ok r =>
      rw [allowAll, hch] at hall
      simp only [Bool.and_eq_true] at hall
      cases k with
      | zero =>
        simp only [List.getElem?_cons_zero, Option.some_inj] at hk
        subst hk
        simp [guardrailEvents, hch, hall.1, List.take, guardrailThread]
      | succ k0 =>
        simp only [List.getElem?_cons_succ] at hk
        have ihr := ih (stepText t r) hall.2 k0 hk
        simp [guardrailEvents, hch, hall.1, List.take, guardrailThread, ite_stepText, ihr]

/-- The first disallowing guardrail (fed the text as rewritten by those before
it) aborts the pipeline with a tripwire error carrying its message. -/
theorem applyOutputGuardrailsAux_deny (t : String)
    (pre : List OutputGuardrail) (g : OutputGuardrail) (rest : List OutputGuardrail)
    (m mo : String)
    (hpre : allowAll t pre = true)
    (hg : g.check (guardrailThread t pre) = .ok ⟨false, m, mo⟩) :
    (applyOutputGuardrailsAux t (pre ++ g :: rest)).2 =
      .error (GoError.baseWith .guardrailTripwire m) := by
  induction pre generalizing t with
  | nil =>
    simp only [guardrailThread] at hg
    simp [applyOutputGuardrailsAux, hg]
  | cons g0 pre0 ih =>
    cases hch : g0.check t with
    | error e => simp [allowAll, hch] at hpre
    | ok r =>
      rw [allowAll, hch] at hpre
      simp only [Bool.and_eq_true] at hpre
      have hg' : g.check (guardrailThread (stepText t r) pre0) = .ok ⟨false, m, mo⟩ := by
        have heq : guardrailThread t (g0 :: pre0) = guardrailThread (stepText t r) pre0 := by
          simp [guardrailThread, hch, hpre.1]
        rw [← heq]
        exact hg
      have ihr := ih (stepText t r) hpre.2 hg'
      have hs : (if r.modifiedOutput = "" then t else r.modifiedOutput) = stepText t r := rfl
      simp [applyOutputGuardrailsAux, hch, hpre.1, ite_stepText]
      rw [hs]
      exact ihr

/-- A final-output step under a declared shape and an all-allowing guardrail
pipeline: the structured value is parsed from the original content while the
final output is the pipeline's rewrite of it. -/
theorem processAgentStep_structuredGuards (state : ExecState) (a : Agent) (P : Provider)
    (resp : ChatResponse) (parse : String → Except String JsonVal) (v : JsonVal)
    (hca : state.currentAgent = a)
    (hprov : state.config.modelProvider = some P)
    (hresp : P state.stepCounter state.messages (settingsFor a state.config) = .ok resp)
    (hnt : resp.message.toolCalls = [])
    (hout : a.core.outputType = some parse)
    (hparse : parse resp.message.content = .ok v)
    (hgsE : a.core.outputGuardrails.isEmpty = false)
    (hallow : allowAll resp.message.content a.core.outputGuardrails = true) :
    processAgentStep state =
      (.modelCall state.stepCounter state.messages ::
         guardrailEvents resp.message.content a.core.outputGuardrails,
       .ok (⟨guardrailThread resp.message.content a.core.outputGuardrails, some v, none,
             [resp.message], convertUsage resp.usage, ""⟩,
            { state with usage := accumulateUsage state.usage (convertUsage resp.usage) })) := by
  have happ := applyOutputGuardrailsAux_allow resp.message.content
    a.core.outputGuardrails hallow
  simp [processAgentStep, hca, hprov, hresp, hnt, processFinalOutput, hout, hparse,
    hgsE, applyOutputGuardrails, happ]

/-- A final-output step (no declared shape) whose guardrail pipeline disallows
aborts with the tripwire error of the first disallowing check. -/
theorem processAgentStep_guardrailDeny (state : ExecState) (a : Agent) (P : Provider)
    (resp : ChatResponse) (pre : List OutputGuardrail) (g : OutputGuardrail)
    (grest : List OutputGuardrail) (m mo : String)
    (hca : state.currentAgent = a)
    (hprov : state.config.modelProvider = some P)
    (hresp : P state.stepCounter state.messages (settingsFor a state.config) = .ok resp)
    (hnt : resp.message.toolCalls = [])
    (hout : a.core.outputType = none)
    (hgs : a.core.outputGuardrails = pre ++ g :: grest)
    (hpre : allowAll resp.message.content pre = true)
    (hg : g.check (guardrailThread resp.message.content pre) = .ok ⟨false, m, mo⟩) :
    ∃ evs0, processAgentStep state =
      (.modelCall state.stepCounter state.messages :: evs0,
       .error (GoError.baseWith .guardrailTripwire m)) := by
  have hgsE : a.core.outputGuardrails.isEmpty = false := by
    rw [hgs]; cases pre <;> rfl
  have hdeny := applyOutputGuardrailsAux_deny resp.message.content pre g grest m mo hpre hg
  rcases hp : applyOutputGuardrailsAux resp.message.content a.core.outputGuardrails
    with ⟨evs0, r0⟩
  have hr0 : r0 = .error (GoError.baseWith .guardrailTripwire m) := by
    rw [hgs] at hp
    rw [hp] at hdeny
    exact hdeny
  subst hr0
  refine ⟨evs0, ?_⟩
  simp [processAgentStep, hca, hprov, hresp, hnt, processFinalOutput, hout,
    hgsE, applyOutputGuardrails, hp]

/-- Threading never turns a non-empty text into the empty text: a rewrite is
taken only when it is itself non-empty. -/
theorem guardrailThread_ne_empty (t : String) (gs : List OutputGuardrail)
    (ht : ¬t = "") : ¬guardrailThread t gs = "" := by
  induction gs generalizing t with
  | nil => exact ht
  | cons g rest ih =>
    cases hch : g.check t with
    | error e =>
      rw [guardrailThread, hch]
      exact ht
    | ok r =>
      by_cases hall : r.allowed = true
      · by_cases hmo : r.modifiedOutput = ""
        · have hst : stepText t r = t := by simp [stepText, hmo]
          simp only [guardrailThread, hch, hall, if_true, hst]
          exact ih t ht
        · have hst : stepText t r = r.modifiedOutput := by simp [stepText, hmo]
          simp only [guardrailThread, hch, hall, if_true, hst]
          exact ih r.modifiedOutput hmo
      · simp only [guardrailThread, hch, hall, if_false]
        exact ht

/-- C8: the output-guardrail pipeline. First, when every check allows, the
pipeline runs the guardrails in declared list order — the `k`-th recorded check
belongs to the `k`-th guardrail and receives the text as rewritten by the
first `k` checks (a non-empty `ModifiedOutput` replaces the text the next
check sees) — and returns the fully threaded text. Second, any disallowed
result aborts the run with `GuardrailTripwire` carrying the check's message.
Third, at run level with a declared strict shape: a rewrite replaces the
plain-text FinalOutput of the Result while the already-parsed StructuredOutput
stays the value parsed from the original content. -/
theorem outputGuardrails_pipeline :
    (∀ (a : Agent) (t : String),
      allowAll t a.core.outputGuardrails = true →
      applyOutputGuardrails a t =
        (guardrailEvents t a.core.outputGuardrails,
         .ok (guardrailThread t a.core.outputGuardrails)) ∧
      ∀ k g, a.core.outputGuardrails[k]? = some g →
        (guardrailEvents t a.core.outputGuardrails)[k]? =
          some (Event.outputGuardrailCheck g.name
            (guardrailThread t (a.core.outputGuardrails.take k)))) ∧
    (∀ (a : Agent) (P : Provider) (input c : String) (cfg : RunConfig)
       (pre : List OutputGuardrail) (g : OutputGuardrail) (grest : List OutputGuardrail)
       (m mo : String),
      cfg.modelProvider = some P → 0 < cfg.maxTurns →
      ¬a.core.instructions = "" → a.core.inputGuardrails = [] →
      a.core.hooks.onStart a.core.name = .ok () →
      (∃ s, a.getSystemPrompt = .ok s) →
      a.core.outputType = none →
      a.core.outputGuardrails = pre ++ g :: grest →
      allowAll c pre = true →
      g.check (guardrailThread c pre) = .ok ⟨false, m, mo⟩ →
      (∀ msgs settings, ∃ resp, P 0 msgs settings = .ok resp ∧
        resp.message.toolCalls = [] ∧ resp.message.content = c) →
      (RunWithConfig a input cfg).2 =
        .error (GoError.wrap "agent execution error" (GoError.wrap "step 1 error"
          (GoError.baseWith .guardrailTripwire m)))) ∧
    (∀ (a : Agent) (P : Provider) (input c : String) (cfg : RunConfig)
       (parse : String → Except String JsonVal) (v : JsonVal),
      cfg.modelProvider = some P → 0 < cfg.maxTurns →
      ¬a.core.instructions = "" → a.core.inputGuardrails = [] →
      a.core.hooks.onStart a.core.name = .ok () →
      a.core.hooks.onEnd a.core.name
        (guardrailThread c a.core.outputGuardrails) = .ok () →
      (∃ s, a.getSystemPrompt = .ok s) →
      ¬c = "" →
      a.core.outputType = some parse →
      parse c = .ok v →
      a.core.outputGuardrails.isEmpty = false →
      allowAll c a.core.outputGuardrails = true →
      (∀ msgs settings, ∃ resp, P 0 msgs settings = .ok resp ∧
        resp.message.toolCalls = [] ∧ resp.message.content = c) →
      ∃ evs res, RunWithConfig a input cfg = (evs, .ok res) ∧
        res.finalOutput = guardrailThread c a.core.outputGuardrails ∧
        res.structuredOutput = some v) := by
  refine ⟨?_, ?_, ?_⟩
  · intro a t hallow
    refine ⟨?_, fun k g hk => guardrailEvents_get t a.core.outputGuardrails hallow k g hk⟩
    unfold applyOutputGuardrails
    exact applyOutputGuardrailsAux_allow t a.core.outputGuardrails hallow
  · intro a P input c cfg pre g grest m mo
      hprov hNpos hinstr hgr hstart hins hout hgs hpre hg hP
    obtain ⟨ins, hins'⟩ := hins
    have hprovF : cfg.modelProvider.isNone = false := by rw [hprov]; rfl
    have hmtpos : ¬cfg.maxTurns ≤ 0 := by omega
    have hveq := RunWithConfig_eq_afterValidation a input cfg hinstr hprovF
    rw [if_neg hmtpos] at hveq
    obtain ⟨resp, hresp, hnt, hcont⟩ :=
      hP (refreshSystemMessage ins (initialState1 a input cfg).messages)
        (settingsFor a (initialState1 a input cfg).config)
    have hgsp : (initialState1 a input cfg).currentAgent.getSystemPrompt = .ok ins := by
      rw [initialState1_currentAgent]; exact hins'
    have h1 : runSingleTurn (initialState1 a input cfg) =
        processAgentStep { initialState1 a input cfg with
          messages := refreshSystemMessage ins (initialState1 a input cfg).messages } := by
      unfold runSingleTurn
      rw [hgsp]
    obtain ⟨evs0, h2⟩ := processAgentStep_guardrailDeny
      ({ initialState1 a input cfg with
          messages := refreshSystemMessage ins (initialState1 a input cfg).messages })
      a P resp pre g grest m mo
      (initialState1_currentAgent a input cfg)
      (by dsimp only; rw [initialState1_config]; exact hprov)
      (by dsimp only; rw [initialState1_stepCounter]; exact hresp)
      hnt hout hgs (by rw [hcont]; exact hpre) (by rw [hcont]; exact hg)
    dsimp only at h2
    have hfuel : ((initialState1 a input cfg).config.maxTurns -
        ((initialState1 a input cfg).stepCounter : Int)).toNat =
        (((initialState1 a input cfg).config.maxTurns -
          ((initialState1 a input cfg).stepCounter : Int)).toNat - 1) + 1 := by
      rw [initialState1_config, initialState1_stepCounter]
      omega
    have hloop : runAgentExecutionLoop (initialState1 a input cfg) =
        (.modelCall (initialState1 a input cfg).stepCounter
            (refreshSystemMessage ins (initialState1 a input cfg).messages) :: evs0,
         .error (GoError.wrap
           ("step " ++ toString ((initialState1 a input cfg).stepCounter + 1) ++ " error")
           (GoError.baseWith .guardrailTripwire m))) := by
      simp only [runAgentExecutionLoop]
      rw [hfuel]
      simp only [runLoopAux]
      rw [h1, h2]
    rw [hveq, runAfterValidation_noGuardrails a input cfg hgr hstart, hloop]
    have hstep : ("step " ++ toString (1 : Nat) ++ " error") = "step 1 error" := rfl
    simp [GoError.baseWith, GoError.wrap, ErrBase.text, initialState1_stepCounter, hstep]
  · intro a P input c cfg parse v
      hprov hNpos hinstr hgr hstart hend hins hcne hout hparse hgsE hallow hP
    obtain ⟨ins, hins'⟩ := hins
    have hprovF : cfg.modelProvider.isNone = false := by rw [hprov]; rfl
    have hmtpos : ¬cfg.maxTurns ≤ 0 := by omega
    have hveq := RunWithConfig_eq_afterValidation a input cfg hinstr hprovF
    rw [if_neg hmtpos] at hveq
    obtain ⟨resp, hresp, hnt, hcont⟩ :=
      hP (refreshSystemMessage ins (initialState1 a input cfg).messages)
        (settingsFor a (initialState1 a input cfg).config)
    have hgsp : (initialState1 a input cfg).currentAgent.getSystemPrompt = .ok ins := by
      rw [initialState1_currentAgent]; exact hins'
    have h1 : runSingleTurn (initialState1 a input cfg) =
        processAgentStep { initialState1 a input cfg with
          messages := refreshSystemMessage ins (initialState1 a input cfg).messages } := by
      unfold runSingleTurn
      rw [hgsp]
    have h2 := processAgentStep_structuredGuards
      ({ initialState1 a input cfg with
          messages := refreshSystemMessage ins (initialState1 a input cfg).messages })
      a P resp parse v
      (initialState1_currentAgent a input cfg)
      (by dsimp only; rw [initialState1_config]; exact hprov)
      (by dsimp only; rw [initialState1_stepCounter]; exact hresp)
      hnt hout (by rw [hcont]; exact hparse) hgsE (by rw [hcont]; exact hallow)
    dsimp only at h2
    have hthreadne : ¬guardrailThread resp.message.content a.core.outputGuardrails = "" :=
      guardrailThread_ne_empty resp.message.content a.core.outputGuardrails
        (by rw [hcont]; exact hcne)
    have h3 := processStepResult_final
      ({ initialState1 a input cfg with
          messages := refreshSystemMessage ins (initialState1 a input cfg).messages,
          usage := accumulateUsage (initialState1 a input cfg).usage (convertUsage resp.usage) })
      ⟨guardrailThread resp.message.content a.core.outputGuardrails, some v, none,
       [resp.message], convertUsage resp.usage, ""⟩
      rfl hthreadne
    dsimp only at h3
    have hfuel : ((initialState1 a input cfg).config.maxTurns -
        ((initialState1 a input cfg).stepCounter : Int)).toNat =
        (((initialState1 a input cfg).config.maxTurns -
          ((initialState1 a input cfg).stepCounter : Int)).toNat - 1) + 1 := by
      rw [initialState1_config, initialState1_stepCounter]
      omega
    have hloop : runLoopAux (((initialState1 a input cfg).config.maxTurns -
        ((initialState1 a input cfg).stepCounter : Int)).toNat) (initialState1 a input cfg) =
        (.modelCall (initialState1 a input cfg).stepCounter
            (refreshSystemMessage ins (initialState1 a input cfg).messages) ::
          guardrailEvents resp.message.content a.core.outputGuardrails,
         .ok ({ initialState1 a input cfg with
            messages := refreshSystemMessage ins (initialState1 a input cfg).messages ++
              [resp.message],
            resultMessages := (initialState1 a input cfg).resultMessages ++ [resp.message],
            usage := accumulateUsage (initialState1 a input cfg).usage (convertUsage resp.usage),
            finalOutput := guardrailThread resp.message.content a.core.outputGuardrails,
            structuredOutput := some v })) := by
      rw [hfuel]
      simp only [runLoopAux]
      rw [h1, h2]
      dsimp only
      rw [h3]
      dsimp only
      rw [if_pos hthreadne]
      simp
    have hendst : a.core.hooks.onEnd a.core.name
        (guardrailThread resp.message.content a.core.outputGuardrails) = .ok () := by
      rw [hcont]; exact hend
    have hrunLoop : runAgentExecutionLoop (initialState1 a input cfg) =
        (.modelCall (initialState1 a input cfg).stepCounter
            (refreshSystemMessage ins (initialState1 a input cfg).messages) ::
          guardrailEvents resp.message.content a.core.outputGuardrails,
         .ok ⟨guardrailThread resp.message.content a.core.outputGuardrails, some v,
           (initialState1 a input cfg).currentAgent,
           convertModelMessages ((initialState1 a input cfg).resultMessages ++ [resp.message]),
           accumulateUsage (initialState1 a input cfg).usage (convertUsage resp.usage)⟩) := by
      simp only [runAgentExecutionLoop]
      rw [hloop]
      dsimp only
      rw [if_neg hthreadne, initialState1_currentAgent, hendst]
    refine ⟨.modelCall (initialState1 a input cfg).stepCounter
        (refreshSystemMessage ins (initialState1 a input cfg).messages) ::
      guardrailEvents resp.message.content a.core.outputGuardrails,
      ⟨guardrailThread resp.message.content a.core.outputGuardrails, some v,
      (initialState1 a input cfg).currentAgent,
      convertModelMessages ((initialState1 a input cfg).resultMessages ++ [resp.message]),
      accumulateUsage (initialState1 a input cfg).usage (convertUsage resp.usage)⟩,
      ?_, by rw [hcont], rfl⟩
    rw [hveq, runAfterValidation_noGuardrails a input cfg hgr hstart, hrunLoop]

/-- A rewrite guardrail: it allows every output and replaces the text with
`"good"`. -/
def wC8Rewrite : OutputGuardrail := ⟨"rewrite", "", fun _ => .ok ⟨true, "", "good"⟩⟩

/-- A tripwire guardrail: it disallows every output with message
`"tripped"`. -/
def wC8Deny : OutputGuardrail := ⟨"deny", "", fun _ => .ok ⟨false, "tripped", ""⟩⟩

/-- The strict-shape parser of the C8 witness: it accepts exactly the text
`"bad"` (as a JSON string value) and fails on everything else. -/
def wC8Parse : String → Except String JsonVal := fun s =>
  if s = "bad" then .ok (.str "bad") else .error "invalid character"

/-- Agent of the C8 rewrite witness: a strict output shape and the rewriting
output guardrail. -/
def wC8AgentOk : Agent :=
  Agent.mk ⟨"a", "sys", none, none, "", [], [], [wC8Rewrite], some wC8Parse,
    baseAgentHooks⟩ []

/-- Agent of the C8 tripwire witness: only the denying output guardrail. -/
def wC8AgentDeny : Agent :=
  Agent.mk ⟨"a", "sys", none, none, "", [], [], [wC8Deny], none, baseAgentHooks⟩ []

/-- Provider replying with the plain text `"bad"` and no tool calls. -/
def wC8Provider : Provider := fun _ _ _ =>
  .ok ⟨⟨"assistant", "bad", [], "", ""⟩, ⟨100, 50, 150⟩⟩

/-- Witness for C8: the rewriting pipeline records one check fed the original
text and returns the rewritten text; the denying guardrail aborts the run with
`GuardrailTripwire` and its message; at run level the rewrite replaces
FinalOutput with `"good"` while StructuredOutput keeps the value parsed from
the original `"bad"`. -/
theorem outputGuardrails_pipeline_witness :
    (applyOutputGuardrails wC8AgentOk "bad" =
       ([.outputGuardrailCheck "rewrite" "bad"], .ok "good") ∧
     (guardrailEvents "bad" wC8AgentOk.core.outputGuardrails)[0]? =
       some (.outputGuardrailCheck "rewrite" "bad")) ∧
    (RunWithConfig wC8AgentDeny "go" (wCfg wC8Provider 10)).2 =
      .error (GoError.wrap "agent execution error" (GoError.wrap "step 1 error"
        (GoError.baseWith .guardrailTripwire "tripped"))) ∧
    (∃ evs res, RunWithConfig wC8AgentOk "go" (wCfg wC8Provider 10) = (evs, .ok res) ∧
      res.finalOutput = "good" ∧ res.structuredOutput = some (.str "bad")) := by
  have h1 := outputGuardrails_pipeline.1 wC8AgentOk "bad" rfl
  have h2 := outputGuardrails_pipeline.2.1 wC8AgentDeny wC8Provider "go" "bad"
    (wCfg wC8Provider 10) [] wC8Deny [] "tripped" ""
    rfl (by simp [wCfg]) (by decide) rfl rfl ⟨"sys", rfl⟩ rfl rfl rfl rfl
    (fun _ _ => ⟨_, rfl, rfl, rfl⟩)
  have h3 := outputGuardrails_pipeline.2.2 wC8AgentOk wC8Provider "go" "bad"
    (wCfg wC8Provider 10) wC8Parse (.str "bad")
    rfl (by simp [wCfg]) (by decide) rfl rfl rfl ⟨"sys", rfl⟩ (by decide) rfl rfl rfl rfl
    (fun _ _ => ⟨_, rfl, rfl, rfl⟩)
  obtain ⟨evs, res, hrun, hfo, hso⟩ := h3
  exact ⟨⟨h1.1.trans (by rfl), (h1.2 0 wC8Rewrite rfl).trans (by rfl)⟩,
    h2, evs, res, hrun, hfo.trans (by rfl), hso⟩

/-!
### C6: MissingInstructions and the static Instructions field
-/

/-- The outcome does not carry the MissingInstructions sentinel (in the
`errors.Is` sense). -/
def noMissing {α : Type} : Except GoError α → Prop
  | .error e => ¬e.base = .agentMissingInstructions
  | .ok _ => True

/-- `Except.map` keeps the error, hence the sentinel. -/
theorem noMissing_map {α β : Type} (f : α → β) {r : Except GoError α}
    (h : noMissing r) : noMissing (r.map f) := by
  cases r with
  | error e => exact h
  | ok a => trivial

/-- Input guardrail failures carry `GuardrailTripwire` or no sentinel. -/
theorem applyInputGuardrailsAux_noMissing (input : String) (gs : List InputGuardrail) :
    noMissing (applyInputGuardrailsAux input gs).2 := by
  induction gs with
  | nil => trivial
  | cons g rest ih =>
    cases hch : g.check input with
    | error e =>
      simp [applyInputGuardrailsAux, hch, noMissing, GoError.wrap, GoError.plain]
    | ok r =>
      cases hall : r.allowed with
      | false =>
        simp [applyInputGuardrailsAux, hch, hall, noMissing, GoError.baseWith]
      | true =>
        simp only [applyInputGuardrailsAux, hch, hall, Bool.not_true, Bool.false_eq_true,
          if_false]
        exact ih

/-- Output guardrail failures carry `GuardrailTripwire` or no sentinel. -/
theorem applyOutputGuardrailsAux_noMissing (gs : List OutputGuardrail) :
    ∀ t, noMissing (applyOutputGuardrailsAux t gs).2 := by
  induction gs with
  | nil => intro t; trivial
  | cons g rest ih =>
    intro t
    cases hch : g.check t with
    | error e =>
      simp [applyOutputGuardrailsAux, hch, noMissing, GoError.wrap, GoError.plain]
    | ok r =>
      cases hall : r.allowed with
      | false =>
        simp [applyOutputGuardrailsAux, hch, hall, noMissing, GoError.baseWith]
      | true =>
        simp only [applyOutputGuardrailsAux, hch, hall, Bool.not_true, Bool.false_eq_true,
          if_false]
        exact ih _

/-- Tool invocation failures carry no sentinel. -/
theorem executeToolWithTracing_noMissing (a : Agent) (t : Tool) (args : String) :
    noMissing (executeToolWithTracing a t args).2 := by
  unfold executeToolWithTracing
  cases hs : a.core.hooks.onToolStart a.core.name t.name with
  | error e => simp [hs, noMissing, GoError.wrap, GoError.plain]
  | ok u =>
    simp only [hs]
    cases hi : t.invoke args with
    | error e => simp [hi, noMissing, GoError.wrap, GoError.plain]
    | ok res =>
      simp only [hi]
      cases he : a.core.hooks.onToolEnd a.core.name t.name res with
      | error e => simp [he, noMissing, GoError.wrap, GoError.plain]
      | ok u2 => simp [he, noMissing]

/-- The tool-execution loop never produces the MissingInstructions sentinel. -/
theorem executeToolCalls_noMissing (a : Agent) (tcs : List ToolCall) :
    noMissing (executeToolCalls a tcs).2 := by
  induction tcs with
  | nil => trivial
  | cons tc rest ih =>
    cases hf : a.core.tools.find? (fun t => t.name == tc.function.name) with
    | none =>
      simp only [executeToolCalls, hf]
      exact noMissing_map _ ih
    | some tool =>
      have h3 := executeToolWithTracing_noMissing a tool tc.function.arguments
      cases hex : executeToolWithTracing a tool tc.function.arguments with
      | mk evs r =>
        rw [hex] at h3
        cases r with
        | error e =>
          simp only [executeToolCalls, hf, hex]
          exact h3
        | ok resp =>
          simp only [executeToolCalls, hf, hex]
          exact noMissing_map _ ih

/-- The handoff scan fails only with `InvalidHandoffInput` or no sentinel. -/
theorem scanHandoffList_noMissing (message : Message) (tc : ToolCall)
    (hs : List Handoff) : noMissing (scanHandoffList message tc hs) := by
  induction hs with
  | nil => trivial
  | cons h rest ih =>
    by_cases hname : h.toolName = tc.function.name
    · rw [scanHandoffList, if_pos hname]
      cases hsh : h.shouldHandoff tc.function.arguments with
      | error e => simp [noMissing, GoError.wrap, GoError.plain]
      | ok shb =>
        simp only
        cases shb with
        | false =>
          simp only [Bool.false_eq_true, if_false]
          exact ih
        | true =>
          rw [if_pos rfl]
          cases hie : h.inputJSONSchema.isEmpty with
          | true => simp [hie, noMissing]
          | false =>
            rw [if_pos (by decide : (!false) = true)]
            cases hvj : ValidateJSON tc.function.argumentsJson h.inputJSONSchema with
            | error e => simp [noMissing, GoError.baseWith]
            | ok u => simp [noMissing]
    · rw [scanHandoffList, if_neg hname]
      exact ih

/-- The outer handoff scan never produces the MissingInstructions sentinel. -/
theorem scanToolCallsForHandoff_noMissing (a : Agent) (message : Message)
    (tcs : List ToolCall) : noMissing (scanToolCallsForHandoff a message tcs) := by
  induction tcs with
  | nil => trivial
  | cons tc rest ih =>
    have h5 := scanHandoffList_noMissing message tc a.handoffs
    cases hscan : scanHandoffList message tc a.handoffs with
    | error e =>
      rw [hscan] at h5
      simp only [scanToolCallsForHandoff, hscan]
      exact h5
    | ok o =>
      cases o with
      | some r => simp [scanToolCallsForHandoff, hscan, noMissing]
      | none =>
        simp only [scanToolCallsForHandoff, hscan]
        exact ih

/-- Invocation dispatch never produces the MissingInstructions sentinel. -/
theorem processToolCallsAndHandoffs_noMissing (a : Agent) (message : Message) :
    noMissing (processToolCallsAndHandoffs a message).2 := by
  unfold processToolCallsAndHandoffs
  cases hemp : message.toolCalls.isEmpty with
  | true => simp [hemp, noMissing, GoError.plain]
  | false =>
    simp only [hemp, Bool.false_eq_true, if_false]
    have h6 := scanToolCallsForHandoff_noMissing a message message.toolCalls
    cases hscan : scanToolCallsForHandoff a message message.toolCalls with
    | error e =>
      rw [hscan] at h6
      simp only [hscan]
      exact h6
    | ok o =>
      cases o with
      | some r => simp [hscan, noMissing]
      | none =>
        simp only [hscan]
        have h4 := executeToolCalls_noMissing a message.toolCalls
        cases hex : executeToolCalls a message.toolCalls with
        | mk evs r =>
          rw [hex] at h4
          cases r with
          | error e =>
            simp only [hex]
            exact h4
          | ok msgs => simp [hex, noMissing]

/-- The final-output tail fails only with `InvalidOutputFormat`,
`GuardrailTripwire` or no sentinel. -/
theorem processFinalOutput_noMissing (state : ExecState) (response : ChatResponse) :
    noMissing (processFinalOutput state response).2 := by
  unfold processFinalOutput
  cases hot : state.currentAgent.core.outputType with
  | none =>
    simp only [hot]
    cases hge : state.currentAgent.core.outputGuardrails.isEmpty with
    | true => simp [hge, noMissing]
    | false =>
      simp only [hge, Bool.false_eq_true, if_false, applyOutputGuardrails]
      have h2 := applyOutputGuardrailsAux_noMissing
        state.currentAgent.core.outputGuardrails response.message.content
      cases hog : applyOutputGuardrailsAux response.message.content
          state.currentAgent.core.outputGuardrails with
      | mk evs r =>
        rw [hog] at h2
        cases r with
        | error e =>
          simp only [hog]
          exact h2
        | ok s => simp [hog, noMissing]
  | some parse =>
    simp only [hot]
    cases hp : parse response.message.content with
    | error e => simp [hp, noMissing, GoError.baseWith]
    | ok v =>
      simp only [hp]
      cases hge : state.currentAgent.core.outputGuardrails.isEmpty with
      | true => simp [hge, noMissing]
      | false =>
        simp only [hge, Bool.false_eq_true, if_false, applyOutputGuardrails]
        have h2 := applyOutputGuardrailsAux_noMissing
          state.currentAgent.core.outputGuardrails response.message.content
        cases hog : applyOutputGuardrailsAux response.message.content
            state.currentAgent.core.outputGuardrails with
        | mk evs r =>
          rw [hog] at h2
          cases r with
          | error e =>
            simp only [hog]
            exact h2
          | ok s => simp [hog, noMissing]

/-- A model step fails only with `ModelProviderRequired`, a downstream
sentinel, or no sentinel — never MissingInstructions. -/
theorem processAgentStep_noMissing (state : ExecState) :
    noMissing (processAgentStep state).2 := by
  unfold processAgentStep
  cases hmp : state.config.modelProvider with
  | none => simp [hmp, noMissing, GoError.fromBase]
  | some provider =>
    simp only [hmp]
    cases hcall : provider state.stepCounter state.messages
        (settingsFor state.currentAgent state.config) with
    | error e => simp [hcall, noMissing, GoError.wrap, GoError.plain]
    | ok response =>
      simp only [hcall]
      cases htc : response.message.toolCalls.isEmpty with
      | false =>
        simp only [htc, Bool.not_false, eq_self_iff_true, if_true]
        have h7 := processToolCallsAndHandoffs_noMissing state.currentAgent response.message
        cases hpt : processToolCallsAndHandoffs state.currentAgent response.message with
        | mk evs r =>
          rw [hpt] at h7
          cases r with
          | error e =>
            simp only [hpt]
            exact h7
          | ok sr => simp [hpt, noMissing]
      | true =>
        simp only [htc, Bool.not_true, Bool.false_eq_true, if_false]
        have h8 := processFinalOutput_noMissing
          { state with usage := accumulateUsage state.usage (convertUsage response.usage) }
          response
        cases hpf : processFinalOutput
            { state with usage := accumulateUsage state.usage (convertUsage response.usage) }
            response with
        | mk evs r =>
          rw [hpf] at h8
          cases r with
          | error e =>
            simp only [hpf]
            exact h8
          | ok pr => simp [hpf, noMissing]

/-- A single turn never produces the MissingInstructions sentinel. -/
theorem runSingleTurn_noMissing (state : ExecState) :
    noMissing (runSingleTurn state).2 := by
  unfold runSingleTurn
  cases hgs : state.currentAgent.getSystemPrompt with
  | error e => simp [hgs, noMissing, GoError.wrap, GoError.plain]
  | ok ins =>
    simp only [hgs]
    exact processAgentStep_noMissing _

/-- A handoff callback failure carries no sentinel. -/
theorem processTargetHandoff_noMissing (h : Handoff) (input : String) :
    noMissing (processTargetHandoff h input) := by
  unfold processTargetHandoff
  cases hoh : h.onHandoff input with
  | error e => simp [hoh, noMissing, GoError.wrap, GoError.plain]
  | ok u => simp [hoh, noMissing]

/-- The handoff callback chain never produces the MissingInstructions
sentinel. -/
theorem processHandoffCallbacks_noMissing (state : ExecState) (nextAgent : Agent)
    (input : String) : noMissing (processHandoffCallbacks state nextAgent input) := by
  unfold processHandoffCallbacks
  cases hfd : state.currentAgent.handoffs.find?
      (fun h => h.target.core.name == nextAgent.core.name) with
  | none =>
    simp only [hfd]
    cases hcb : state.config.handoffCallback with
    | none =>
      simp only [hcb]
      cases hoh : nextAgent.core.hooks.onHandoff nextAgent.core.name
          state.currentAgent.core.name with
      | error e => simp [hoh, noMissing, GoError.wrap, GoError.plain]
      | ok u => simp [hoh, noMissing]
    | some cb =>
      simp only [hcb]
      cases hc : cb nextAgent.core.name state.currentAgent.core.name input with
      | error e => simp [hc, noMissing, GoError.wrap, GoError.plain]
      | ok u =>
        simp only [hc]
        cases hoh : nextAgent.core.hooks.onHandoff nextAgent.core.name
            state.currentAgent.core.name with
        | error e => simp [hoh, noMissing, GoError.wrap, GoError.plain]
        | ok u2 => simp [hoh, noMissing]
  | some th =>
    simp only [hfd]
    have hth := processTargetHandoff_noMissing th input
    cases hpt : processTargetHandoff th input with
    | error e =>
      rw [hpt] at hth
      simp only [hpt]
      exact hth
    | ok u =>
      simp only [hpt]
      cases hcb : state.config.handoffCallback with
      | none =>
        simp only [hcb]
        cases hoh : nextAgent.core.hooks.onHandoff nextAgent.core.name
            state.currentAgent.core.name with
        | error e => simp [hoh, noMissing, GoError.wrap, GoError.plain]
        | ok u2 => simp [hoh, noMissing]
      | some cb =>
        simp only [hcb]
        cases hc : cb nextAgent.core.name state.currentAgent.core.name input with
        | error e => simp [hc, noMissing, GoError.wrap, GoError.plain]
        | ok u2 =>
          simp only [hc]
          cases hoh : nextAgent.core.hooks.onHandoff nextAgent.core.name
              state.currentAgent.core.name with
          | error e => simp [hoh, noMissing, GoError.wrap, GoError.plain]
          | ok u3 => simp [hoh, noMissing]

/-- An input-filter failure carries no sentinel. -/
theorem applyHandoffInputFilter_noMissing (state : ExecState) (nextAgent : Agent)
    (input : String) : noMissing (applyHandoffInputFilter state nextAgent input) := by
  unfold applyHandoffInputFilter
  cases hfl : state.config.handoffInputFilter with
  | none => simp [hfl, noMissing]
  | some filter =>
    simp only [hfl]
    cases hr : filter ⟨[], [], [],
        [("handoff_input", input), ("source_agent", state.currentAgent.core.name),
         ("target_agent", nextAgent.core.name)]⟩ with
    | error e => simp [hr, noMissing, GoError.wrap, GoError.plain]
    | ok u => simp [hr, noMissing]

/-- The message swap never produces the MissingInstructions sentinel. -/
theorem updateMessagesForNewAgent_noMissing (state : ExecState) (nextAgent : Agent) :
    noMissing (updateMessagesForNewAgent state nextAgent) := by
  unfold updateMessagesForNewAgent
  cases hgs : nextAgent.getSystemPrompt with
  | error e => simp [hgs, noMissing, GoError.wrap, GoError.plain]
  | ok ins => simp [hgs, noMissing]

/-- A transfer never produces the MissingInstructions sentinel. -/
theorem handleAgentHandoff_noMissing (state : ExecState) (stepRes : StepResult)
    (nextAgent : Agent) : noMissing (handleAgentHandoff state stepRes nextAgent).2 := by
  unfold handleAgentHandoff
  have hcb := processHandoffCallbacks_noMissing state nextAgent stepRes.handoffInput
  cases hpc : processHandoffCallbacks state nextAgent stepRes.handoffInput with
  | error e =>
    rw [hpc] at hcb
    simp only [hpc]
    exact hcb
  | ok u =>
    simp only [hpc]
    have hfl := applyHandoffInputFilter_noMissing state nextAgent stepRes.handoffInput
    cases hpf : applyHandoffInputFilter state nextAgent stepRes.handoffInput with
    | error e =>
      rw [hpf] at hfl
      simp only [hpf]
      exact hfl
    | ok u2 =>
      simp only [hpf]
      have hup := updateMessagesForNewAgent_noMissing state nextAgent
      cases hum : updateMessagesForNewAgent state nextAgent with
      | error e =>
        rw [hum] at hup
        simp only [hum]
        exact hup
      | ok state1 =>
        simp only [hum]
        cases hos : state1.currentAgent.core.hooks.onStart state1.currentAgent.core.name with
        | error e => simp [hos, noMissing, GoError.wrap, GoError.plain]
        | ok u3 => simp [hos, noMissing]

/-- Step-result processing never produces the MissingInstructions sentinel. -/
theorem processStepResult_noMissing (state : ExecState) (stepRes : StepResult) :
    noMissing (processStepResult state stepRes).2 := by
  unfold processStepResult
  cases hna : stepRes.nextAgent with
  | some nextAgent =>
    simp only [hna]
    exact handleAgentHandoff_noMissing _ _ _
  | none =>
    simp only [hna]
    by_cases hfo : stepRes.finalOutput = ""
    · simp [hfo, noMissing]
    · simp [hfo, noMissing]

/-- The turn loop never produces the MissingInstructions sentinel. -/
theorem runLoopAux_noMissing (fuel : Nat) :
    ∀ state, noMissing (runLoopAux fuel state).2 := by
  induction fuel with
  | zero => intro state; trivial
  | succ n ih =>
    intro state
    have h10 := runSingleTurn_noMissing state
    cases h1 : runSingleTurn state with
    | mk evs r =>
      rw [h1] at h10
      cases r with
      | error e =>
        simp only [runLoopAux, h1]
        exact h10
      | ok pr =>
        obtain ⟨stepRes, state1⟩ := pr
        have h12 := processStepResult_noMissing state1 stepRes
        cases h2 : processStepResult state1 stepRes with
        | mk evs2 r2 =>
          rw [h2] at h12
          cases r2 with
          | error e =>
            simp only [runLoopAux, h1, h2]
            exact h12
          | ok state2 =>
            by_cases hfo : state2.finalOutput = ""
            · have h3 := ih { state2 with stepCounter := state2.stepCounter + 1 }
              cases h4 : runLoopAux n { state2 with stepCounter := state2.stepCounter + 1 } with
              | mk evs3 r3 =>
                rw [h4] at h3
                simp only [runLoopAux, h1, h2]
                rw [if_neg (fun hc : state2.finalOutput ≠ "" => hc hfo)]
                simp only [h4]
                exact h3
            · simp [runLoopAux, h1, h2, hfo, noMissing]

/-- The execution loop never produces the MissingInstructions sentinel: a
budget overrun carries `MaxTurnsExceeded`, an OnEnd failure no sentinel. -/
theorem runAgentExecutionLoop_noMissing (state : ExecState) :
    noMissing (runAgentExecutionLoop state).2 := by
  unfold runAgentExecutionLoop
  have h13 := runLoopAux_noMissing
    ((state.config.maxTurns - (state.stepCounter : Int)).toNat) state
  cases hl : runLoopAux ((state.config.maxTurns - (state.stepCounter : Int)).toNat) state with
  | mk evs r =>
    rw [hl] at h13
    cases r with
    | error e =>
      simp only [hl]
      exact h13
    | ok st =>
      simp only [hl]
      by_cases hfo : st.finalOutput = ""
      · simp [hfo, noMissing, GoError.fromBase]
      · rw [if_neg hfo]
        cases hoe : st.currentAgent.core.hooks.onEnd st.currentAgent.core.name
            st.finalOutput with
        | error e => simp [hoe, noMissing, GoError.wrap, GoError.plain]
        | ok u => simp [hoe, noMissing]

/-- After successful validation nothing downstream can produce the
MissingInstructions sentinel. -/
theorem runAfterValidation_noMissing (a : Agent) (input : String) (config1 : RunConfig) :
    noMissing (runAfterValidation a input config1).2 := by
  unfold runAfterValidation
  have h1 := applyInputGuardrailsAux_noMissing input a.core.inputGuardrails
  cases hg : applyInputGuardrails
      ⟨a, a, input, config1, prepareMessages a input, [], ⟨0, 0, 0⟩, 0, "", none⟩ with
  | mk evs r =>
    have hg2 : applyInputGuardrailsAux input a.core.inputGuardrails = (evs, r) := hg
    rw [hg2] at h1
    cases r with
    | error e =>
      simp only [hg]
      exact h1
    | ok u =>
      simp only [hg]
      cases hos : a.core.hooks.onStart a.core.name with
      | error e => simp [hos, noMissing, GoError.wrap, GoError.plain]
      | ok u2 =>
        simp only [hos]
        by_cases hin : input = ""
        · subst hin
          rw [if_neg (fun hc : ("" : String) ≠ "" => hc rfl)]
          have h14 := runAgentExecutionLoop_noMissing
            ⟨a, a, "", config1, prepareMessages a "", [], ⟨0, 0, 0⟩, 0, "", none⟩
          cases hloop : runAgentExecutionLoop
              ⟨a, a, "", config1, prepareMessages a "", [], ⟨0, 0, 0⟩, 0, "", none⟩ with
          | mk evs2 r2 =>
            rw [hloop] at h14
            cases r2 with
            | error e2 =>
              simp only [hloop]
              by_cases hmx : e2.base = ErrBase.maxTurnsExceeded
              · simp [hmx, noMissing, GoError.fromBase]
              · rw [if_neg hmx]
                exact h14
            | ok result => simp [hloop, noMissing]
        · rw [if_pos hin]
          have h14 := runAgentExecutionLoop_noMissing
            ⟨a, a, input, config1, prepareMessages a input,
             [] ++ [⟨"user", input, [], "", ""⟩], ⟨0, 0, 0⟩, 0, "", none⟩
          cases hloop : runAgentExecutionLoop
              ⟨a, a, input, config1, prepareMessages a input,
               [] ++ [⟨"user", input, [], "", ""⟩], ⟨0, 0, 0⟩, 0, "", none⟩ with
          | mk evs2 r2 =>
            rw [hloop] at h14
            cases r2 with
            | error e2 =>
              simp only [hloop]
              by_cases hmx : e2.base = ErrBase.maxTurnsExceeded
              · simp [hmx, noMissing, GoError.fromBase]
              · rw [if_neg hmx]
                exact h14
            | ok result => simp [hloop, noMissing]

/-- With non-empty static instructions the whole run never produces the
MissingInstructions sentinel. -/
theorem RunWithConfig_noMissing (a : Agent) (input : String) (cfg : RunConfig)
    (hins : ¬a.core.instructions = "") : noMissing (RunWithConfig a input cfg).2 := by
  unfold RunWithConfig validateInputsAndSetup
  rw [if_neg hins]
  cases hmp : cfg.modelProvider.isNone with
  | true => simp [noMissing, GoError.wrap, GoError.fromBase]
  | false =>
    by_cases hmt : cfg.maxTurns ≤ 0
    · simp only [Bool.false_eq_true, if_false, if_pos hmt]
      exact runAfterValidation_noMissing _ _ _
    · simp only [Bool.false_eq_true, if_false, if_neg hmt]
      exact runAfterValidation_noMissing _ _ _

/-- C6: a run fails with MissingInstructions — in the `errors.Is` sense —
exactly when the starting agent's static Instructions field is the empty
string; dynamic or async-dynamic instructions do not prevent the failure
(validation never consults them). When the static field is empty the run
returns at validation with the exact error
`validation error: agent has no instructions` and an empty trace, hence
before any model call. -/
theorem missingInstructions_staticOnly (a : Agent) (input : String) (cfg : RunConfig) :
    (failsWith (RunWithConfig a input cfg) .agentMissingInstructions ↔
      a.core.instructions = "") ∧
    (a.core.instructions = "" →
      RunWithConfig a input cfg = ([], .error (GoError.wrap "validation error"
        (GoError.fromBase .agentMissingInstructions)))) := by
  constructor
  · constructor
    · intro hfail
      by_contra hne
      obtain ⟨e, he, hbase⟩ := hfail
      have h := RunWithConfig_noMissing a input cfg hne
      rw [he] at h
      exact h hbase
    · intro hemp
      refine ⟨GoError.wrap "validation error" (GoError.fromBase .agentMissingInstructions),
        ?_, rfl⟩
      simp [RunWithConfig, validateInputsAndSetup, hemp]
  · intro hemp
    simp [RunWithConfig, validateInputsAndSetup, hemp]

/-- Agent with empty static instructions but computable dynamic
instructions. -/
def cexC6Agent : Agent :=
  Agent.mk ⟨"a", "", some "Dynamic instructions", none, "", [], [], [], none,
    baseAgentHooks⟩ []

/-- A provider that would answer with a final text, were it ever called. -/
def cexC6Provider : Provider := fun _ _ _ =>
  .ok ⟨⟨"assistant", "done", [], "", ""⟩, ⟨1, 1, 1⟩⟩

/-- Counterexample for C6 as stated: this agent's instructions CAN be
computed (`GetSystemPrompt` succeeds with the dynamic instructions), yet the
run fails with MissingInstructions, because validation looks only at the
static Instructions field. -/
theorem missingInstructions_counterexample :
    cexC6Agent.getSystemPrompt = .ok "Dynamic instructions" ∧
    RunWithConfig cexC6Agent "hi" (wCfg cexC6Provider 10) =
      ([], .error (GoError.wrap "validation error"
        (GoError.fromBase .agentMissingInstructions))) ∧
    failsWith (RunWithConfig cexC6Agent "hi" (wCfg cexC6Provider 10))
      .agentMissingInstructions :=
  ⟨rfl, rfl, ⟨GoError.wrap "validation error" (GoError.fromBase .agentMissingInstructions),
    rfl, rfl⟩⟩

/-- Witness for C6: the dynamic-instruction agent fails with
MissingInstructions on an empty trace, while an agent with non-empty static
instructions cannot fail with that sentinel. -/
theorem missingInstructions_staticOnly_witness :
    failsWith (RunWithConfig cexC6Agent "hi" (wCfg cexC6Provider 10))
      .agentMissingInstructions ∧
    RunWithConfig cexC6Agent "hi" (wCfg cexC6Provider 10) =
      ([], .error (GoError.wrap "validation error"
        (GoError.fromBase .agentMissingInstructions))) ∧
    ¬failsWith (RunWithConfig (AgentNew "b" "sys") "hi" (wCfg cexC6Provider 10))
      .agentMissingInstructions :=
  ⟨(missingInstructions_staticOnly cexC6Agent "hi" (wCfg cexC6Provider 10)).1.mpr rfl,
   (missingInstructions_staticOnly cexC6Agent "hi" (wCfg cexC6Provider 10)).2 rfl,
   fun hf => absurd
     ((missingInstructions_staticOnly (AgentNew "b" "sys") "hi"
        (wCfg cexC6Provider 10)).1.mp hf)
     (by decide)⟩

end AgentsSDK
